import Mathlib

/-!
Verification development for the in-process message-passing channel core
(`MessageChannel` / `MessagePort` / `structuredClone` and the transfer codec
`serializeJsMessageData` / `deserializeJsMessageData`).

The JavaScript source is embedded shallowly: module-level mutable state
(ports, buffers, the process-wide listener counter, the transport) becomes an
explicit `WorldState` record threaded through every operation; JavaScript
exceptions become `Except DomError` results paired with the (possibly
partially mutated) state, since a thrown exception does not roll back heap
mutations already performed.

The opaque value codec (`core.serialize` / `core.deserialize`) and the native
transport ops are external collaborators of this module; they are modelled
from the specification (see the doc comments on `coreSerialize`,
`coreDeserialize`, `opCreateEntangledMessagePort`, `transportPost`).
-/

namespace MsgPort

/-- A `DOMException`: carried message and error name (e.g. "DataCloneError"). -/
structure DomError where
  message : String
  name : String
  deriving DecidableEq, Repr

/-- A node of the structured-value graph. Values live in a heap
(`WorldState.valueHeap`); `composite` children are heap indices, which allows
cyclic values. `portLeaf` embeds a message port (a host object) into a value;
`hostRef` is the codec's by-position encoding of a host object inside
serialized bytes. -/
inductive Node where
  | prim (n : Int)
  | composite (children : List Nat)
  | portLeaf (p : Nat)
  | hostRef (k : Nat)
  deriving DecidableEq, Repr

/-- Serialized payload bytes: a snapshot of the value store plus the root
index, or a malformed blob (which the codec rejects on deserialize). -/
inductive Bytes where
  | good (heap : List Node) (root : Nat)
  | malformed
  deriving DecidableEq, Repr

/-- A transferable descriptor inside a message envelope
(`messagePort.Transferable` in the source): either a transferred port's
transport id, or a moved buffer's contents. -/
inductive TDesc where
  | messagePort (id : Nat)
  | arrayBuffer (content : List Nat)
  deriving DecidableEq, Repr

/-- A message envelope (`messagePort.MessageData`): serialized payload plus
the ordered transferable descriptors. -/
structure MessageData where
  data : Bytes
  transferables : List TDesc
  deriving DecidableEq, Repr

/-- An element of a `postMessage`/`structuredClone` transfer list: an
`ArrayBuffer` (by buffer-store index), a `MessagePort` (by port-store index),
or any other object (neither buffer nor port). -/
inductive TransferEntry where
  | buffer (b : Nat)
  | port (p : Nat)
  | other
  deriving DecidableEq, Repr

/-- An element of the transferred-objects list produced by
`deserializeJsMessageData`: a materialized port, a materialized buffer, or
the `null` placeholder pushed for a buffer descriptor. -/
inductive TObj where
  | port (p : Nat)
  | buf (b : Nat)
  | nullv
  deriving DecidableEq, Repr

/-- One `MessagePort` object: optional transport id (`null` once closed or
transferred away), the receive-loop `enabled` flag, the `refed` flag, the
`MessagePortReceiveMessageOnPort` flag, and the node-worker close-callback
slot with its invoked-guard. -/
structure Port where
  transportId : Option Nat
  enabled : Bool
  refed : Bool
  receiveOnPort : Bool
  hasCloseCb : Bool
  closeCbInvoked : Bool
  deriving DecidableEq, Repr

/-- One `ArrayBuffer`: contents plus the detached flag. Detaching zeroes the
contents. -/
structure BufferState where
  content : List Nat
  detached : Bool
  deriving DecidableEq, Repr

/-- A transport interaction, recorded in order on `WorldState.transportLog`. -/
inductive TransportOp where
  | create (a b : Nat)
  | post (id : Nat) (md : MessageData)
  | close (id : Nat)
  deriving DecidableEq, Repr

/-- An event dispatched on a port: a "message" event carrying the
deserialized data root and the filtered port list, or a "messageerror"
event. -/
inductive EventKind where
  | message (dataRoot : Nat) (ports : List Nat)
  | messageerror
  deriving DecidableEq, Repr

/-- A dispatched event together with the port it was dispatched on. -/
structure DispatchedEvent where
  target : Nat
  kind : EventKind
  deriving DecidableEq, Repr

/-- What one `op_message_port_recv_message` await resolves to: an envelope,
`null` (peer closed cleanly), an `Interrupted` error, or any other transport
failure. -/
inductive RecvEvent where
  | data (md : MessageData)
  | closed
  | interrupted
  | failure
  deriving DecidableEq, Repr

/-- Why the receive loop of `start()` exited. `idNull`, `closedSignal` and
`interruptBreak` correspond to `break`; `errorPropagated` to the re-`throw`;
`messageErrorReturn` to the `return` in the deserialize-failure branch. -/
inductive ExitReason where
  | idNull
  | closedSignal
  | interruptBreak
  | errorPropagated
  | messageErrorReturn
  deriving DecidableEq, Repr

/-- Options handed to the codec's serialize: host objects (ports) and
transferred buffers, each listed by store index. -/
structure SerOpts where
  hostObjects : List Nat
  transferredArrayBuffers : List Nat
  deriving DecidableEq, Repr

/-- Options handed to the codec's deserialize: freshly materialized host
ports and the carried buffer contents. -/
structure DeOpts where
  hostObjects : List Nat
  transferredArrayBuffers : List (List Nat)
  deriving DecidableEq, Repr

/-- The whole mutable world: the port store, the buffer store, the
structured-value heap, the process-wide `messageEventListenerCount`, the
registered listeners, the transport interaction log, the per-transport-id
message queues, the dispatched-event log, and the log of close-callback
invocations. -/
structure WorldState where
  ports : List Port
  buffers : List BufferState
  valueHeap : List Node
  listenerCount : Int
  listeners : List (Nat × String)
  transportLog : List TransportOp
  queues : List (List MessageData)
  eventLog : List DispatchedEvent
  closeCbCalls : List Nat
  deriving DecidableEq, Repr

/-- The default (absent) port used by out-of-range reads. -/
def defaultPort : Port := ⟨none, false, false, false, false, false⟩

/-- Read a port from the store. -/
def getPort (st : WorldState) (p : Nat) : Port :=
  st.ports.getD p defaultPort

/-- Write a port back to the store (no-op when out of range, as hypotheses
keep indices in range). -/
def setPort (st : WorldState) (p : Nat) (v : Port) : WorldState :=
  { st with ports := st.ports.set p v }

/-- Set a port's transport id (`this[_id] = ...`). -/
def setPortId (st : WorldState) (p : Nat) (id : Option Nat) : WorldState :=
  setPort st p { getPort st p with transportId := id }

/-- Set a port's `enabled` flag. -/
def setEnabled (st : WorldState) (p : Nat) (b : Bool) : WorldState :=
  setPort st p { getPort st p with enabled := b }

/-- Clear a port's `MessagePortReceiveMessageOnPort` flag. -/
def setReceiveOnPort (st : WorldState) (p : Nat) (b : Bool) : WorldState :=
  setPort st p { getPort st p with receiveOnPort := b }

/-- The default (absent) buffer used by out-of-range reads. -/
def defaultBuffer : BufferState := ⟨[], false⟩

/-- Read a buffer from the store. -/
def getBuf (st : WorldState) (b : Nat) : BufferState :=
  st.buffers.getD b defaultBuffer

/-- Write a buffer back to the store. -/
def setBuf (st : WorldState) (b : Nat) (v : BufferState) : WorldState :=
  { st with buffers := st.buffers.set b v }

/-- Modelled from the spec: one encoding step of the opaque codec
`core.serialize`. Host objects (ports embedded in the value) are encoded
by their position in the `hostObjects` side table ("keyed by position, not
by implicit object identity tables"); a port that is not listed is not
clonable and yields the `DataCloneError`-class failure raised through the
error callback. Plain nodes are kept; composite children stay as
snapshot-relative indices, which is how cyclic values are supported. -/
def encodeNode (hostObjs : List Nat) : Node → Except DomError Node
  | .prim n => .ok (.prim n)
  | .composite cs => .ok (.composite cs)
  | .portLeaf p =>
    match hostObjs.findIdx? (fun q => q = p) with
    | some k => .ok (.hostRef k)
    | none => .error ⟨"MessagePort can not be cloned", "DataCloneError"⟩
  | .hostRef _ => .error ⟨"unexpected reference node", "DataCloneError"⟩

/-- Modelled from the spec: the codec encodes the value store node by node
(the store is the backing graph of the value being serialized). -/
def encodeHeap (hostObjs : List Nat) : List Node → Except DomError (List Node)
  | [] => .ok []
  | n :: rest =>
    match encodeNode hostObjs n with
    | .error e => .error e
    | .ok n2 =>
      match encodeHeap hostObjs rest with
      | .error e => .error e
      | .ok rest2 => .ok (n2 :: rest2)

/-- Modelled from the spec: one decoding step of the opaque codec
`core.deserialize`. The decoded nodes are appended to the local value heap
at offset `off`, so composite children are shifted; a `hostRef` is spliced
with the newly materialized host object at that position, and an index with
no corresponding descriptor is a malformed envelope. -/
def decodeNode (hostPorts : List Nat) (off : Nat) : Node → Except DomError Node
  | .prim n => .ok (.prim n)
  | .composite cs => .ok (.composite (cs.map (fun c => c + off)))
  | .hostRef k =>
    match hostPorts.get? k with
    | some p => .ok (.portLeaf p)
    | none => .error ⟨"transferable index has no descriptor", "MessageDeliveryError"⟩
  | .portLeaf _ => .error ⟨"unexpected host object in payload", "MessageDeliveryError"⟩

/-- Modelled from the spec: decode a serialized heap snapshot node by node. -/
def decodeHeap (hostPorts : List Nat) (off : Nat) : List Node → Except DomError (List Node)
  | [] => .ok []
  | n :: rest =>
    match decodeNode hostPorts off n with
    | .error e => .error e
    | .ok n2 =>
      match decodeHeap hostPorts off rest with
      | .error e => .error e
      | .ok rest2 => .ok (n2 :: rest2)

/-- Renaming of heap indices by `off`; the clone produced by the codec is
the image of the original graph under this renaming. -/
def shiftNode (off : Nat) : Node → Node
  | .prim n => .prim n
  | .composite cs => .composite (cs.map (fun c => c + off))
  | .portLeaf p => .portLeaf p
  | .hostRef k => .hostRef k

/-- Modelled from the spec: `core.serialize` detaches each transferred
buffer in order, from the instant serialization captures it; detaching a
buffer that is already detached (in particular the second occurrence of a
buffer listed twice) is the clonability failure surfaced as a
`DataCloneError`. Returns the captured contents, one per buffer, and leaves
each buffer zero-length and detached. -/
def detachBuffers (st : WorldState) : List Nat → Nat → WorldState × Except DomError (List (List Nat))
  | [], _ => (st, .ok [])
  | b :: rest, j =>
    let buf := getBuf st b
    if buf.detached then
      (st, .error ⟨"ArrayBuffer at index " ++ toString j ++ " is already detached",
        "DataCloneError"⟩)
    else
      let st1 := setBuf st b ⟨[], true⟩
      let (st2, r) := detachBuffers st1 rest (j + 1)
      (st2, r.map (fun cs => buf.content :: cs))

/-- Modelled from the spec: the opaque codec
`core.serialize(value, options, errorCallback)`. Transferred buffers are
moved (detached and captured), host objects are encoded by position, the
value graph (the value store with the given root) is snapshotted into
bytes; every failure is raised through the callback as a
`DataCloneError`. -/
def coreSerialize (st : WorldState) (root : Nat) (opts : Option SerOpts) :
    WorldState × Except DomError (Bytes × List (List Nat)) :=
  let hostObjs := (opts.map SerOpts.hostObjects).getD []
  let tabs := (opts.map SerOpts.transferredArrayBuffers).getD []
  let (st1, rd) := detachBuffers st tabs 0
  match rd with
  | .error e => (st1, .error e)
  | .ok contents =>
    match encodeHeap hostObjs st1.valueHeap with
    | .error e => (st1, .error e)
    | .ok enc => (st1, .ok (Bytes.good enc root, contents))

/-- Modelled from the spec: the codec materializes one fresh buffer per
carried contents list, in order, and returns their store indices. -/
def allocBuffers (st : WorldState) : List (List Nat) → WorldState × List Nat
  | [] => (st, [])
  | c :: rest =>
    let r := st.buffers.length
    let st1 := { st with buffers := st.buffers ++ [⟨c, false⟩] }
    let (st2, rs) := allocBuffers st1 rest
    (st2, r :: rs)

/-- Modelled from the spec: the opaque codec
`core.deserialize(bytes, options)`. Materializes the transferred buffers,
decodes the snapshot onto the end of the local value heap (splicing the
given host ports by position), and returns the new root together with the
fresh buffer indices; a malformed blob or a dangling reference fails. -/
def coreDeserialize (st : WorldState) (bytes : Bytes) (opts : Option DeOpts) :
    WorldState × Except DomError (Nat × List Nat) :=
  match bytes with
  | .malformed => (st, .error ⟨"failed to deserialize message", "MessageDeliveryError"⟩)
  | .good heap root =>
    let hostPorts := (opts.map DeOpts.hostObjects).getD []
    let contents := (opts.map DeOpts.transferredArrayBuffers).getD []
    if root < heap.length then
      match decodeHeap hostPorts st.valueHeap.length heap with
      | .error e => (st, .error e)
      | .ok dec =>
        let (st1, bufRefs) := allocBuffers st contents
        ({ st1 with valueHeap := st1.valueHeap ++ dec },
          .ok (st.valueHeap.length + root, bufRefs))
    else (st, .error ⟨"root out of range", "MessageDeliveryError"⟩)

/-- `createMessagePort(id)` (src part_000 lines 107-113): allocate a fresh
branded port bound to the given transport id; all flags start false and the
close-callback slot starts empty. Returns the new port's store index. -/
def createMessagePort (st : WorldState) (id : Nat) : WorldState × Nat :=
  ({ st with ports := st.ports ++ [⟨some id, false, false, false, false, false⟩] },
    st.ports.length)

/-- First loop of `serializeJsMessageData` (src part_000 lines 361-380):
partition the transfer list, checking each `ArrayBuffer` for
zero-length-and-detached (the error message carries the running buffer
index `j`), collecting transferred buffers and host-object ports. Pure:
this loop performs no mutation. -/
def collectTransferParts (st : WorldState) : List TransferEntry → Nat →
    Except DomError (List Nat × List Nat)
  | [], _ => .ok ([], [])
  | .buffer b :: rest, j =>
    let buf := getBuf st b
    if buf.content.length = 0 ∧ buf.detached then
      .error ⟨"ArrayBuffer at index " ++ toString j ++ " is already detached",
        "DataCloneError"⟩
    else
      (collectTransferParts st rest (j + 1)).map (fun pr => (b :: pr.1, pr.2))
  | .port p :: rest, j =>
    (collectTransferParts st rest j).map (fun pr => (pr.1, p :: pr.2))
  | .other :: rest, j => collectTransferParts st rest j

/-- Second loop of `serializeJsMessageData` (src part_000 lines 395-421):
walk the transfer list again producing the ordered descriptors. A port with
a `null` id fails ("Can not transfer disentangled message port"); otherwise
its id is captured and the local handle is nulled immediately. A buffer's
descriptor carries the contents captured by the codec (`contents`, indexed
by the running `arrayBufferI`). Anything else fails with "Value not
transferable". A thrown error keeps the mutations already performed. -/
def serializeTransferables (st : WorldState) : List TransferEntry → List (List Nat) → Nat →
    WorldState × Except DomError (List TDesc)
  | [], _, _ => (st, .ok [])
  | .port p :: rest, contents, i =>
    match (getPort st p).transportId with
    | none => (st, .error ⟨"Can not transfer disentangled message port", "DataCloneError"⟩)
    | some id =>
      let st1 := setPortId st p none
      let (st2, r) := serializeTransferables st1 rest contents i
      (st2, r.map (fun ds => TDesc.messagePort id :: ds))
  | .buffer _ :: rest, contents, i =>
    let (st2, r) := serializeTransferables st rest contents (i + 1)
    (st2, r.map (fun ds => TDesc.arrayBuffer (contents.getD i []) :: ds))
  | .other :: _, _, _ =>
    (st, .error ⟨"Value not transferable", "DataCloneError"⟩)

/-- `serializeJsMessageData(data, transferables)` (src part_000 lines
358-427): collect transfer parts, run the codec (options are only built
when the transfer list is non-empty), then produce the ordered descriptor
list, invalidating transferred ports synchronously. -/
def serializeJsMessageData (st : WorldState) (root : Nat) (transfer : List TransferEntry) :
    WorldState × Except DomError MessageData :=
  match collectTransferParts st transfer 0 with
  | .error e => (st, .error e)
  | .ok parts =>
    let opts := if 0 < transfer.length then some (⟨parts.2, parts.1⟩ : SerOpts) else none
    let (st1, rs) := coreSerialize st root opts
    match rs with
    | .error e => (st1, .error e)
    | .ok br =>
      let (st2, rt) := serializeTransferables st1 transfer br.2 0
      match rt with
      | .error e => (st2, .error e)
      | .ok descs => (st2, .ok ⟨br.1, descs⟩)

/-- JavaScript `a[i] = v` on an array: replace in range, append at the
length, fill with nulls beyond (holes). -/
def jsArraySet (l : List TObj) (i : Nat) (v : TObj) : List TObj :=
  if i < l.length then l.set i v
  else l ++ List.replicate (i - l.length) TObj.nullv ++ [v]

/-- Descriptor loop of `deserializeJsMessageData` (src part_000 lines
315-341), written as a left fold over the descriptors with the four
accumulators of the source: the transferables list under construction, the
recorded `arrayBufferIdsInTransferables`, the carried buffer contents, and
the host-object ports. For a buffer descriptor the recorded index is the
value returned by `ArrayPrototypePush(transferables, null)`, i.e. the new
length of the list after the push. -/
def deserializeDescsLoop (st : WorldState) :
    List TDesc → List TObj → List Nat → List (List Nat) → List Nat →
    WorldState × List TObj × List Nat × List (List Nat) × List Nat
  | [], ts, ids, cs, hs => (st, ts, ids, cs, hs)
  | .messagePort id :: rest, ts, ids, cs, hs =>
    let (st1, p) := createMessagePort st id
    deserializeDescsLoop st1 rest (ts ++ [TObj.port p]) ids cs (hs ++ [p])
  | .arrayBuffer c :: rest, ts, ids, cs, hs =>
    let ts1 := ts ++ [TObj.nullv]
    deserializeDescsLoop st rest ts1 (ids ++ [ts1.length]) (cs ++ [c]) hs

/-- Splice loop of `deserializeJsMessageData` (src part_000 lines 345-348):
`transferables[id] = transferredArrayBuffers[i]` for each recorded id, in
order, where the codec has replaced the carried contents by the
materialized buffers. -/
def spliceBuffers : List TObj → List (Nat × Nat) → List TObj
  | ts, [] => ts
  | ts, (id, b) :: rest => spliceBuffers (jsArraySet ts id (TObj.buf b)) rest

/-- `deserializeJsMessageData(messageData)` (src part_000 lines 308-351):
materialize ports and placeholders from the descriptors, run the codec, and
splice the materialized buffers back at the recorded indices. Returns the
deserialized root and the transferred-objects list. -/
def deserializeJsMessageData (st : WorldState) (md : MessageData) :
    WorldState × Except DomError (Nat × List TObj) :=
  let (st1, ts, ids, cs, hs) := deserializeDescsLoop st md.transferables [] [] [] []
  let opts := if 0 < md.transferables.length then some (⟨hs, cs⟩ : DeOpts) else none
  let (st2, r) := coreDeserialize st1 md.data opts
  match r with
  | .error e => (st2, .error e)
  | .ok rb => (st2, .ok (rb.1, spliceBuffers ts (ids.zip rb.2)))

/-- `structuredClone(value, options)` (src part_000 lines 443-453):
serialize then immediately deserialize in the same context, returning the
deserialized value root. -/
def structuredClone (st : WorldState) (root : Nat) (transfer : List TransferEntry) :
    WorldState × Except DomError Nat :=
  let (st1, r) := serializeJsMessageData st root transfer
  match r with
  | .error e => (st1, .error e)
  | .ok md =>
    let (st2, r2) := deserializeJsMessageData st1 md
    match r2 with
    | .error e => (st2, .error e)
    | .ok rb => (st2, .ok rb.1)

/-- Modelled from the spec: the native transport's entangled-pair factory
`op_message_port_create_entangled`. Ids are allocated in adjacent pairs,
each with an empty queue. -/
def opCreateEntangledMessagePort (st : WorldState) : WorldState × Nat × Nat :=
  let a := st.queues.length
  ({ st with queues := st.queues ++ [[], []],
             transportLog := st.transportLog ++ [.create a (a + 1)] },
    a, a + 1)

/-- `new MessageChannel()` (src part_000 lines 52-59): create an entangled
id pair and wrap each id in a fresh port. Returns the two port indices. -/
def messageChannelNew (st : WorldState) : WorldState × Nat × Nat :=
  let (st1, ab) := opCreateEntangledMessagePort st
  let (st2, p1) := createMessagePort st1 ab.1
  let (st3, p2) := createMessagePort st2 ab.2
  (st3, p1, p2)

/-- Modelled from the spec: the native transport's
`op_message_port_post_message`: enqueue the envelope on the entangled
peer's queue (ids are allocated in adjacent pairs) and record the
interaction. -/
def transportPost (st : WorldState) (id : Nat) (md : MessageData) : WorldState :=
  let peer := if id % 2 = 0 then id + 1 else id - 1
  { st with queues := st.queues.set peer ((st.queues.getD peer []) ++ [md]),
            transportLog := st.transportLog ++ [.post id md] }

/-- `MessagePort.postMessage(message, transferOrOptions)` (src part_000
lines 153-184), after webidl normalization of the second argument to a
transfer list: reject a transfer list containing the receiver itself, run
`serializeJsMessageData`, silently drop the envelope when the own transport
id is `null`, otherwise post it. -/
def postMessage (st : WorldState) (self : Nat) (root : Nat) (transfer : List TransferEntry) :
    WorldState × Except DomError Unit :=
  if TransferEntry.port self ∈ transfer then
    (st, .error ⟨"Can not transfer self", "DataCloneError"⟩)
  else
    let (st1, r) := serializeJsMessageData st root transfer
    match r with
    | .error e => (st1, .error e)
    | .ok md =>
      match (getPort st1 self).transportId with
      | none => (st1, .ok ())
      | some id => (transportPost st1 id md, .ok ())

/-- `nodeWorkerThreadMaybeInvokeCloseCb(port)` (src part_000 lines
115-123): invoke the registered close callback unless it has already been
invoked, then set the invoked-guard. -/
def maybeInvokeCloseCb (st : WorldState) (p : Nat) : WorldState :=
  let port := getPort st p
  if port.hasCloseCb ∧ port.closeCbInvoked = false then
    let st1 := setPort st p { port with closeCbInvoked := true }
    { st1 with closeCbCalls := st1.closeCbCalls ++ [p] }
  else st

/-- `MessagePort.close()` (src part_000 lines 250-257): when the transport
id is non-null, close it at the transport, null the local handle, and maybe
invoke the close callback; otherwise do nothing. -/
def closePort (st : WorldState) (p : Nat) : WorldState :=
  match (getPort st p).transportId with
  | none => st
  | some id =>
    let st1 := { st with transportLog := st.transportLog ++ [.close id] }
    let st2 := setPortId st1 p none
    maybeInvokeCloseCb st2 p

/-- `MessagePort[refMessagePort](ref)` (src part_000 lines 240-248):
ref'ing a not-yet-ref'd port increments the process-wide counter by one;
unref'ing a ref'd port resets the shared counter to zero. -/
def refMessagePort (st : WorldState) (p : Nat) (ref : Bool) : WorldState :=
  let port := getPort st p
  if ref ∧ port.refed = false then
    let st1 := setPort st p { port with refed := true }
    { st1 with listenerCount := st1.listenerCount + 1 }
  else if ref = false ∧ port.refed then
    let st1 := setPort st p { port with refed := false }
    { st1 with listenerCount := 0 }
  else st

/-- `MessagePort.addEventListener(...args)` (src part_000 lines 266-272):
for a "message" listener, bump the process-wide counter and set the refed
flag, then register the listener on the underlying event target. It does
not start the receive loop. -/
def addEventListener (st : WorldState) (p : Nat) (ty : String) : WorldState :=
  let st1 :=
    if ty = "message" then
      let st0 := { st with listenerCount := st.listenerCount + 1 }
      let port := getPort st0 p
      if port.refed = false then setPort st0 p { port with refed := true } else st0
    else st
  { st1 with listeners := st1.listeners ++ [(p, ty)] }

/-- `MessagePort.removeEventListener(...args)` (src part_000 lines
259-264): unconditionally decrement the process-wide counter for a
"message" listener, then unregister. -/
def removeEventListener (st : WorldState) (p : Nat) (ty : String) : WorldState :=
  let st1 :=
    if ty = "message" then { st with listenerCount := st.listenerCount - 1 } else st
  { st1 with
      listeners := (st1.listeners.indexOf? (p, ty)).elim st1.listeners st1.listeners.eraseIdx }

/-- The subsequence of transferred objects that are ports (the
`ArrayPrototypeFilter` with the `MessagePortPrototype` check in the
"message" event construction). -/
def portsOfTObjs (ts : List TObj) : List Nat :=
  ts.filterMap (fun t => match t with | .port p => some p | _ => none)

/-- `dispatchEvent` on a port: append the event to the dispatched-event
log. -/
def dispatch (st : WorldState) (target : Nat) (k : EventKind) : WorldState :=
  { st with eventLog := st.eventLog ++ [⟨target, k⟩] }

/-- The receive loop body of `MessagePort.start()` (src part_000 lines
191-235), driven by the list of outcomes the transport's recv produces at
successive awaits. At the top of each iteration a `null` transport id
breaks the loop. An envelope is deserialized and dispatched as a "message"
event; a deserialization failure dispatches "messageerror" and returns from
the async function (not a break). `Interrupted` either resumes (when the
`receiveMessageOnPort` flag is set, clearing it) or breaks. A `null` recv
result (clean close) maybe-invokes the close callback and breaks; any other
recv failure maybe-invokes it and rethrows. An exhausted outcome list means
the loop is suspended at the await (`none`). -/
def runLoop (p : Nat) : WorldState → List RecvEvent → WorldState × Option ExitReason
  | st, [] =>
    if (getPort st p).transportId = none then (st, some .idNull) else (st, none)
  | st, e :: rest =>
    if (getPort st p).transportId = none then (st, some .idNull)
    else
      match e with
      | .failure => (maybeInvokeCloseCb st p, some .errorPropagated)
      | .closed => (maybeInvokeCloseCb st p, some .closedSignal)
      | .interrupted =>
        if (getPort st p).receiveOnPort then
          runLoop p (setReceiveOnPort st p false) rest
        else (st, some .interruptBreak)
      | .data md =>
        let (st1, r) := deserializeJsMessageData st md
        match r with
        | .error _ => (dispatch st1 p .messageerror, some .messageErrorReturn)
        | .ok rb =>
          runLoop p (dispatch st1 p (.message rb.1 (portsOfTObjs rb.2))) rest

/-- `MessagePort.start()` (src part_000 lines 186-238): a no-op when
already enabled; otherwise set the enabled flag and run the receive loop.
The flag is cleared after the loop only on the `break` exits; the
`return` exit of the deserialize-failure branch and the rethrow exit leave
it set, as does a loop still suspended at an await. -/
def startPort (st : WorldState) (p : Nat) (events : List RecvEvent) :
    WorldState × Option ExitReason :=
  if (getPort st p).enabled then (st, none)
  else
    let st1 := setEnabled st p true
    let (st2, ex) := runLoop p st1 events
    match ex with
    | some .idNull => (setEnabled st2 p false, ex)
    | some .closedSignal => (setEnabled st2 p false, ex)
    | some .interruptBreak => (setEnabled st2 p false, ex)
    | _ => (st2, ex)

/-- Modelled from the spec: assigning the "message" event-handler property.
`defineEventHandler(MessagePort.prototype, "message", function (self) {
self.start(); })` (src part_000 lines 289-291) installs a handler property
whose assignment registers a "message" listener and invokes the init hook,
which calls `start()`; the event-handler registration itself is in the
event-dispatch base class, which is external to this module. -/
def setOnmessage (st : WorldState) (p : Nat) (events : List RecvEvent) :
    WorldState × Option ExitReason :=
  startPort (addEventListener st p "message") p events

/-! ### Store access lemmas -/

theorem getD_set_self {α : Type} (l : List α) (i : Nat) (v d : α) (h : i < l.length) :
    (l.set i v).getD i d = v := by
  simp [List.getD, List.getElem?_set_self', List.getElem?_eq_getElem h]

theorem getD_set_ne {α : Type} (l : List α) (i j : Nat) (v d : α) (h : i ≠ j) :
    (l.set i v).getD j d = l.getD j d := by
  simp [List.getD, List.getElem?_set_ne h]

theorem getPort_setPort_self (st : WorldState) (p : Nat) (v : Port)
    (h : p < st.ports.length) : getPort (setPort st p v) p = v := by
  simp only [getPort, setPort]
  exact getD_set_self _ _ _ _ h

theorem getPort_setPort_ne (st : WorldState) (p q : Nat) (v : Port) (h : p ≠ q) :
    getPort (setPort st p v) q = getPort st q := by
  simp only [getPort, setPort]
  exact getD_set_ne _ _ _ _ _ h

theorem getBuf_setBuf_self (st : WorldState) (b : Nat) (v : BufferState)
    (h : b < st.buffers.length) : getBuf (setBuf st b v) b = v := by
  simp only [getBuf, setBuf]
  exact getD_set_self _ _ _ _ h

theorem getBuf_setBuf_ne (st : WorldState) (b c : Nat) (v : BufferState) (h : b ≠ c) :
    getBuf (setBuf st b v) c = getBuf st c := by
  simp only [getBuf, setBuf]
  exact getD_set_ne _ _ _ _ _ h

/-! ### Concrete worlds used by witnesses and counterexamples -/

/-- A world with one entangled port (transport id 5) and nothing else. -/
def oneEntangledPortWorld : WorldState :=
  ⟨[⟨some 5, false, false, false, false, false⟩], [], [], 0, [], [], [], [], []⟩

/-- A world with two ports: port 0 not ref'd, port 1 ref'd, and a nonzero
process-wide listener counter. -/
def twoPortRefWorld : WorldState :=
  ⟨[⟨some 0, false, false, false, false, false⟩,
    ⟨some 1, false, true, false, false, false⟩], [], [], 4, [], [], [], [], []⟩

/-! ### C3: self-transfer is rejected without invalidation -/

/-- C3: for every endpoint `p` and message, `p.postMessage(x, transfer)` with
`p` itself in the transfer list throws a DataCloneError ("Can not transfer
self") with the world unchanged; in particular `p`'s transport id is
unchanged, so the failed call never invalidates `p`. -/
theorem postMessage_self_transfer_rejected (st : WorldState) (p root : Nat)
    (transfer : List TransferEntry) (h : TransferEntry.port p ∈ transfer) :
    postMessage st p root transfer =
      (st, .error ⟨"Can not transfer self", "DataCloneError"⟩) ∧
    (getPort (postMessage st p root transfer).1 p).transportId =
      (getPort st p).transportId := by
  have hpost : postMessage st p root transfer =
      (st, .error ⟨"Can not transfer self", "DataCloneError"⟩) := by
    simp [postMessage, h]
  exact ⟨hpost, by rw [hpost]⟩

/-- Witness for C3 at a concrete entangled port. -/
theorem postMessage_self_transfer_rejected_witness :
    TransferEntry.port 0 ∈ [TransferEntry.port 0] ∧
    (postMessage oneEntangledPortWorld 0 0 [TransferEntry.port 0] =
      (oneEntangledPortWorld, .error ⟨"Can not transfer self", "DataCloneError"⟩) ∧
    (getPort (postMessage oneEntangledPortWorld 0 0 [TransferEntry.port 0]).1 0).transportId =
      (getPort oneEntangledPortWorld 0).transportId) :=
  ⟨by decide,
   postMessage_self_transfer_rejected oneEntangledPortWorld 0 0 [TransferEntry.port 0]
     (by decide)⟩

/-! ### C9: the process-wide listener/ref counter -/

/-- C9: the listener/ref counter is one process-wide field shared by all
endpoints: ref'ing a not-yet-ref'd endpoint increments it by one, while
unref'ing any single ref'd endpoint resets the shared counter to zero — even
right after a different endpoint was ref'd. -/
theorem refMessagePort_counter (st : WorldState) (p q : Nat)
    (hp : (getPort st p).refed = false) (hq : (getPort st q).refed = true)
    (hpq : p ≠ q) :
    (refMessagePort st p true).listenerCount = st.listenerCount + 1 ∧
    (refMessagePort st q false).listenerCount = 0 ∧
    (refMessagePort (refMessagePort st p true) q false).listenerCount = 0 := by
  have h1 : (refMessagePort st p true).listenerCount = st.listenerCount + 1 := by
    simp [refMessagePort, hp, setPort]
  have hq2 : (getPort (refMessagePort st p true) q).refed = true := by
    have : getPort (refMessagePort st p true) q = getPort st q := by
      simp only [refMessagePort, hp]
      simp only [and_true, true_and, if_pos rfl]
      simp only [getPort, setPort]
      exact getD_set_ne _ _ _ _ _ hpq
    rw [this]; exact hq
  have h2 : ∀ st2 : WorldState, (getPort st2 q).refed = true →
      (refMessagePort st2 q false).listenerCount = 0 := by
    intro st2 hr
    simp [refMessagePort, hr, setPort]
  exact ⟨h1, h2 st hq, h2 _ hq2⟩

/-- Witness for C9 at a concrete two-port world with counter 4. -/
theorem refMessagePort_counter_witness :
    (getPort twoPortRefWorld 0).refed = false ∧
    (getPort twoPortRefWorld 1).refed = true ∧
    ((refMessagePort twoPortRefWorld 0 true).listenerCount =
        twoPortRefWorld.listenerCount + 1 ∧
      (refMessagePort twoPortRefWorld 1 false).listenerCount = 0 ∧
      (refMessagePort (refMessagePort twoPortRefWorld 0 true) 1 false).listenerCount = 0) :=
  ⟨by decide, by decide,
   refMessagePort_counter twoPortRefWorld 0 1 (by decide) (by decide) (by decide)⟩

/-! ### C6: the close callback fires exactly once -/

/-- `close()` on an endpoint whose transport id is already `null` is a
complete no-op. -/
theorem closePort_id_none (st : WorldState) (p : Nat)
    (h : (getPort st p).transportId = none) : closePort st p = st := by
  simp [closePort, h]

/-- The invoked-guard: `nodeWorkerThreadMaybeInvokeCloseCb` does nothing once
the callback has been invoked. -/
theorem maybeInvokeCloseCb_invoked (st : WorldState) (p : Nat)
    (h : (getPort st p).closeCbInvoked = true) : maybeInvokeCloseCb st p = st := by
  simp [maybeInvokeCloseCb, h]

/-- `nodeWorkerThreadMaybeInvokeCloseCb` on a registered, not-yet-invoked
callback: record the invocation and set the guard. -/
theorem maybeInvokeCloseCb_fresh (st : WorldState) (p : Nat)
    (hcb : (getPort st p).hasCloseCb = true)
    (hinv : (getPort st p).closeCbInvoked = false) :
    maybeInvokeCloseCb st p =
      { setPort st p { getPort st p with closeCbInvoked := true } with
        closeCbCalls := st.closeCbCalls ++ [p] } := by
  simp [maybeInvokeCloseCb, hcb, hinv, setPort]

/-- `close()` on an open endpoint: close at the transport, null the handle,
maybe invoke the callback. -/
theorem closePort_open (st : WorldState) (p i : Nat)
    (h : (getPort st p).transportId = some i) :
    closePort st p =
      maybeInvokeCloseCb
        (setPortId { st with transportLog := st.transportLog ++ [.close i] } p none) p := by
  simp [closePort, h]

theorem getPort_setPortId_self (st : WorldState) (p : Nat) (v : Option Nat)
    (h : p < st.ports.length) :
    getPort (setPortId st p v) p = { getPort st p with transportId := v } :=
  getPort_setPort_self st p _ h

/-- C6: with a registered, not-yet-invoked close callback and an open
transport id, `close()` invokes the callback exactly once: the first close
appends exactly one invocation, a second `close()` (the id now being `null`)
is a complete no-op, a transport-signalled clean close observed by the
receive loop after `close()` (`nodeWorkerThreadMaybeInvokeCloseCb`) is a
no-op thanks to the invoked-guard, and in the reverse race (loop-observed
clean close first, then `close()`) the callback still fires exactly once. -/
theorem closePort_cb_exactly_once (st : WorldState) (p i : Nat)
    (hlen : p < st.ports.length)
    (hcb : (getPort st p).hasCloseCb = true)
    (hinv : (getPort st p).closeCbInvoked = false)
    (hid : (getPort st p).transportId = some i) :
    ((closePort st p).closeCbCalls.count p = st.closeCbCalls.count p + 1 ∧
      closePort (closePort st p) p = closePort st p ∧
      maybeInvokeCloseCb (closePort st p) p = closePort st p) ∧
    (closePort (maybeInvokeCloseCb st p) p).closeCbCalls.count p =
      st.closeCbCalls.count p + 1 := by
  have hAlen : p < (setPortId { st with transportLog := st.transportLog ++ [.close i] }
      p none).ports.length := by
    simp only [setPortId, setPort, List.length_set]
    exact hlen
  have hgetA : getPort (setPortId { st with transportLog := st.transportLog ++ [.close i] }
      p none) p = { getPort st p with transportId := none } :=
    getPort_setPortId_self { st with transportLog := st.transportLog ++ [.close i] } p none hlen
  have hcbA : (getPort (setPortId { st with transportLog := st.transportLog ++ [.close i] }
      p none) p).hasCloseCb = true := by rw [hgetA]; exact hcb
  have hinvA : (getPort (setPortId { st with transportLog := st.transportLog ++ [.close i] }
      p none) p).closeCbInvoked = false := by rw [hgetA]; exact hinv
  have hcalls : (closePort st p).closeCbCalls = st.closeCbCalls ++ [p] := by
    rw [closePort_open st p i hid, maybeInvokeCloseCb_fresh _ _ hcbA hinvA]
    rfl
  have hcount : (closePort st p).closeCbCalls.count p = st.closeCbCalls.count p + 1 := by
    rw [hcalls]
    simp
  have hgc : getPort (closePort st p) p =
      getPort (setPort (setPortId { st with transportLog := st.transportLog ++ [.close i] }
        p none) p { getPort (setPortId { st with transportLog :=
          st.transportLog ++ [.close i] } p none) p with closeCbInvoked := true }) p := by
    rw [closePort_open st p i hid, maybeInvokeCloseCb_fresh _ _ hcbA hinvA]
    rfl
  have hgetClosed : getPort (closePort st p) p =
      { getPort st p with transportId := none, closeCbInvoked := true } := by
    rw [hgc, getPort_setPort_self _ p _ hAlen, hgetA]
  have hidem : closePort (closePort st p) p = closePort st p :=
    closePort_id_none _ p (by rw [hgetClosed])
  have hguard : maybeInvokeCloseCb (closePort st p) p = closePort st p :=
    maybeInvokeCloseCb_invoked _ p (by rw [hgetClosed])
  -- reverse race: the loop's clean close invokes the callback first
  have hmcalls : (maybeInvokeCloseCb st p).closeCbCalls = st.closeCbCalls ++ [p] := by
    rw [maybeInvokeCloseCb_fresh st p hcb hinv]
  have hMlen : p < (maybeInvokeCloseCb st p).ports.length := by
    rw [maybeInvokeCloseCb_fresh st p hcb hinv]
    simp only [setPort, List.length_set]
    exact hlen
  have hgetM : getPort (maybeInvokeCloseCb st p) p =
      { getPort st p with closeCbInvoked := true } := by
    have hgc2 : getPort (maybeInvokeCloseCb st p) p =
        getPort (setPort st p { getPort st p with closeCbInvoked := true }) p := by
      rw [maybeInvokeCloseCb_fresh st p hcb hinv]
      rfl
    rw [hgc2, getPort_setPort_self st p _ hlen]
  have hidM : (getPort (maybeInvokeCloseCb st p) p).transportId = some i := by
    rw [hgetM]; exact hid
  have hinvB : (getPort (setPortId { maybeInvokeCloseCb st p with
      transportLog := (maybeInvokeCloseCb st p).transportLog ++ [.close i] } p none)
      p).closeCbInvoked = true := by
    have h1 := getPort_setPortId_self
      { maybeInvokeCloseCb st p with
        transportLog := (maybeInvokeCloseCb st p).transportLog ++ [.close i] } p none hMlen
    rw [h1]
    have h2 : getPort { maybeInvokeCloseCb st p with
        transportLog := (maybeInvokeCloseCb st p).transportLog ++ [.close i] } p =
        getPort (maybeInvokeCloseCb st p) p := rfl
    rw [h2, hgetM]
  have hrace : (closePort (maybeInvokeCloseCb st p) p).closeCbCalls.count p =
      st.closeCbCalls.count p + 1 := by
    rw [closePort_open (maybeInvokeCloseCb st p) p i hidM,
      maybeInvokeCloseCb_invoked _ p hinvB]
    have : (setPortId { maybeInvokeCloseCb st p with
        transportLog := (maybeInvokeCloseCb st p).transportLog ++ [.close i] } p
        none).closeCbCalls = st.closeCbCalls ++ [p] := by
      simp only [setPortId, setPort]
      exact hmcalls
    rw [this]
    simp
  exact ⟨⟨hcount, hidem, hguard⟩, hrace⟩

/-- A world with one open port carrying a registered, not-yet-invoked close
callback. -/
def closeCbWorld : WorldState :=
  ⟨[⟨some 3, false, false, false, true, false⟩], [], [], 0, [], [], [], [], []⟩

/-- Witness for C6 at a concrete port with a registered callback. -/
theorem closePort_cb_exactly_once_witness :
    (0 < closeCbWorld.ports.length ∧
      (getPort closeCbWorld 0).hasCloseCb = true ∧
      (getPort closeCbWorld 0).closeCbInvoked = false ∧
      (getPort closeCbWorld 0).transportId = some 3) ∧
    (((closePort closeCbWorld 0).closeCbCalls.count 0 =
        closeCbWorld.closeCbCalls.count 0 + 1 ∧
      closePort (closePort closeCbWorld 0) 0 = closePort closeCbWorld 0 ∧
      maybeInvokeCloseCb (closePort closeCbWorld 0) 0 = closePort closeCbWorld 0) ∧
    (closePort (maybeInvokeCloseCb closeCbWorld 0) 0).closeCbCalls.count 0 =
      closeCbWorld.closeCbCalls.count 0 + 1) :=
  ⟨⟨by decide, by decide, by decide, by decide⟩,
   closePort_cb_exactly_once closeCbWorld 0 3 (by decide) (by decide) (by decide) (by decide)⟩

/-! ### Port-store length monotonicity through the receive loop -/

theorem setPort_ports_length (st : WorldState) (p : Nat) (v : Port) :
    (setPort st p v).ports.length = st.ports.length := by
  simp [setPort]

theorem maybeInvokeCloseCb_ports_length (st : WorldState) (p : Nat) :
    (maybeInvokeCloseCb st p).ports.length = st.ports.length := by
  unfold maybeInvokeCloseCb
  by_cases h : (getPort st p).hasCloseCb = true ∧ (getPort st p).closeCbInvoked = false
  · simp [h, setPort]
  · simp [h]

theorem createMessagePort_ports_length (st : WorldState) (id : Nat) :
    (createMessagePort st id).1.ports.length = st.ports.length + 1 := by
  simp [createMessagePort]

theorem deserializeDescsLoop_ports_mono (ds : List TDesc) :
    ∀ (st : WorldState) (ts : List TObj) (ids : List Nat) (cs : List (List Nat))
      (hs : List Nat),
      st.ports.length ≤ (deserializeDescsLoop st ds ts ids cs hs).1.ports.length := by
  induction ds with
  | nil => intro st ts ids cs hs; simp [deserializeDescsLoop]
  | cons d rest ih =>
    intro st ts ids cs hs
    cases d with
    | messagePort id =>
      simp only [deserializeDescsLoop, createMessagePort]
      refine le_trans ?_ (ih _ _ _ _ _)
      simp
    | arrayBuffer c =>
      simp only [deserializeDescsLoop]
      exact ih _ _ _ _ _

theorem allocBuffers_ports (cs : List (List Nat)) :
    ∀ st : WorldState, (allocBuffers st cs).1.ports = st.ports := by
  induction cs with
  | nil => intro st; simp [allocBuffers]
  | cons c rest ih => intro st; simp [allocBuffers, ih]

theorem coreDeserialize_ports (st : WorldState) (bytes : Bytes) (opts : Option DeOpts) :
    (coreDeserialize st bytes opts).1.ports = st.ports := by
  unfold coreDeserialize
  cases bytes with
  | malformed => rfl
  | good heap root =>
    simp only
    split
    · split
      · rfl
      · simp [allocBuffers_ports]
    · rfl

theorem deserializeJsMessageData_fst_ports (st : WorldState) (md : MessageData) :
    (deserializeJsMessageData st md).1.ports =
      (deserializeDescsLoop st md.transferables [] [] [] []).1.ports := by
  unfold deserializeJsMessageData
  rcases hd : deserializeDescsLoop st md.transferables [] [] [] [] with ⟨st1, ts, ids, cs, hs⟩
  simp only [hd]
  rcases hr : coreDeserialize st1 md.data
      (if 0 < md.transferables.length then some ⟨hs, cs⟩ else none) with ⟨st2, r⟩
  have hp := coreDeserialize_ports st1 md.data
    (if 0 < md.transferables.length then some ⟨hs, cs⟩ else none)
  rw [hr] at hp
  simp only [hr]
  cases r with
  | error e => exact hp
  | ok rb => exact hp

theorem deserializeJsMessageData_ports_mono (st : WorldState) (md : MessageData) :
    st.ports.length ≤ (deserializeJsMessageData st md).1.ports.length := by
  have h := deserializeJsMessageData_fst_ports st md
  have h1 := deserializeDescsLoop_ports_mono md.transferables st [] [] [] []
  calc st.ports.length
      ≤ (deserializeDescsLoop st md.transferables [] [] [] []).1.ports.length := h1
    _ = (deserializeJsMessageData st md).1.ports.length := by rw [h]

theorem runLoop_ports_mono (p : Nat) (events : List RecvEvent) :
    ∀ st : WorldState, st.ports.length ≤ (runLoop p st events).1.ports.length := by
  induction events with
  | nil =>
    intro st
    simp only [runLoop]
    by_cases hid : (getPort st p).transportId = none
    · rw [if_pos hid]
    · rw [if_neg hid]
  | cons e rest ih =>
    intro st
    cases e with
    | failure =>
      simp only [runLoop]
      by_cases hid : (getPort st p).transportId = none
      · rw [if_pos hid]
      · rw [if_neg hid]
        exact (maybeInvokeCloseCb_ports_length st p).ge
    | closed =>
      simp only [runLoop]
      by_cases hid : (getPort st p).transportId = none
      · rw [if_pos hid]
      · rw [if_neg hid]
        exact (maybeInvokeCloseCb_ports_length st p).ge
    | interrupted =>
      simp only [runLoop]
      by_cases hid : (getPort st p).transportId = none
      · rw [if_pos hid]
      · rw [if_neg hid]
        by_cases hrp : (getPort st p).receiveOnPort = true
        · rw [if_pos hrp]
          calc st.ports.length
              = (setReceiveOnPort st p false).ports.length := (setPort_ports_length _ _ _).symm
            _ ≤ _ := ih (setReceiveOnPort st p false)
        · rw [if_neg hrp]
    | data md =>
      simp only [runLoop]
      by_cases hid : (getPort st p).transportId = none
      · rw [if_pos hid]
      · rw [if_neg hid]
        rcases hD : deserializeJsMessageData st md with ⟨st1, r⟩
        have hmono : st.ports.length ≤ st1.ports.length := by
          have := deserializeJsMessageData_ports_mono st md
          rw [hD] at this
          exact this
        simp only [hD]
        cases r with
        | error e => exact hmono
        | ok rb =>
          calc st.ports.length
              ≤ st1.ports.length := hmono
            _ = (dispatch st1 p (.message rb.1 (portsOfTObjs rb.2))).ports.length := rfl
            _ ≤ _ := ih _

/-! ### C4: the enabled flag after receive-loop exit -/

/-- C4 (amended): when the receive loop started by `start()` exits through a
`break` — the transport id became `null`, the transport signalled a clean
close, or a non-resumed interrupt — the endpoint's enabled flag is false
after the exit. (The two non-`break` exits — a propagated transport failure
and a deserialization failure dispatched as "messageerror" — leave the flag
set, see the counterexample.) -/
theorem startPort_break_exits_disable (st : WorldState) (p : Nat)
    (events : List RecvEvent) (hlen : p < st.ports.length) (r : ExitReason)
    (hr : (startPort st p events).2 = some r)
    (hbreak : r = .idNull ∨ r = .closedSignal ∨ r = .interruptBreak) :
    (getPort (startPort st p events).1 p).enabled = false := by
  unfold startPort at hr ⊢
  by_cases hen : (getPort st p).enabled = true
  · rw [if_pos hen] at hr
    exact absurd hr (by simp)
  · rw [if_neg hen] at hr ⊢
    rcases hL : runLoop p (setEnabled st p true) events with ⟨st2, ex⟩
    have hlen2 : p < st2.ports.length := by
      have h1 := runLoop_ports_mono p events (setEnabled st p true)
      rw [hL] at h1
      have h1b : (setEnabled st p true).ports.length ≤ st2.ports.length := h1
      have h2 : (setEnabled st p true).ports.length = st.ports.length :=
        setPort_ports_length _ _ _
      omega
    simp only [hL] at hr ⊢
    cases ex with
    | none => exact absurd hr (by simp)
    | some reason =>
      cases reason with
      | idNull =>
        have := getPort_setPort_self st2 p { getPort st2 p with enabled := false } hlen2
        simp only [setEnabled]
        rw [this]
      | closedSignal =>
        have := getPort_setPort_self st2 p { getPort st2 p with enabled := false } hlen2
        simp only [setEnabled]
        rw [this]
      | interruptBreak =>
        have := getPort_setPort_self st2 p { getPort st2 p with enabled := false } hlen2
        simp only [setEnabled]
        rw [this]
      | errorPropagated =>
        obtain rfl : ExitReason.errorPropagated = r := Option.some.inj hr
        rcases hbreak with h | h | h <;> exact absurd h (by decide)
      | messageErrorReturn =>
        obtain rfl : ExitReason.messageErrorReturn = r := Option.some.inj hr
        rcases hbreak with h | h | h <;> exact absurd h (by decide)

/-- A world with one closed port (transport id already `null`). -/
def closedPortWorld : WorldState :=
  ⟨[⟨none, false, false, false, false, false⟩], [], [], 0, [], [], [], [], []⟩

/-- Witness for amended C4: starting the loop on a closed port exits with
`idNull` and leaves the enabled flag false. -/
theorem startPort_break_exits_disable_witness :
    (0 < closedPortWorld.ports.length ∧
      (startPort closedPortWorld 0 []).2 = some ExitReason.idNull) ∧
    (getPort (startPort closedPortWorld 0 []).1 0).enabled = false :=
  ⟨⟨by decide, by decide⟩,
   startPort_break_exits_disable closedPortWorld 0 [] (by decide) ExitReason.idNull
     (by decide) (Or.inl rfl)⟩

/-- A world with one open port about to receive a malformed envelope. -/
def malformedEnvWorld : WorldState :=
  ⟨[⟨some 0, false, false, false, false, false⟩], [], [], 0, [], [], [], [], []⟩

/-- Counterexample to C4 as stated: when the incoming envelope fails to
deserialize, the loop exits through the "messageerror" `return`, yet the
enabled flag is still true after the exit (the claim says it must be false
on every exit, including this one). -/
theorem startPort_messageerror_keeps_enabled :
    (startPort malformedEnvWorld 0 [RecvEvent.data ⟨Bytes.malformed, []⟩]).2 =
      some ExitReason.messageErrorReturn ∧
    (getPort (startPort malformedEnvWorld 0 [RecvEvent.data ⟨Bytes.malformed, []⟩]).1
      0).enabled = true ∧
    (startPort malformedEnvWorld 0 [RecvEvent.data ⟨Bytes.malformed, []⟩]).1.eventLog =
      [⟨0, EventKind.messageerror⟩] := by
  refine ⟨?_, ?_, ?_⟩ <;> rfl

/-! ### C5: listener registration and the receive loop -/

/-- A world whose value heap holds the message `{a: 1}` (a composite node at
root 1 with one primitive child; property names are abstracted away by the
codec model). -/
def abWorld : WorldState :=
  ⟨[], [], [Node.prim 1, Node.composite [0]], 0, [], [], [], [], []⟩

/-- `const {port1, port2} = new MessageChannel()` on `abWorld`: ports 0/1 on
transport ids 0/1. -/
def chanWorld : WorldState × Nat × Nat := messageChannelNew abWorld

/-- `port2.addEventListener("message", onMsg)`. -/
def listenWorld : WorldState := addEventListener chanWorld.1 1 "message"

/-- `port1.postMessage({a: 1})` (empty transfer list). -/
def postedWorld : WorldState × Except DomError Unit := postMessage listenWorld 0 1 []

/-- Assigning `port2.onmessage` afterwards: the handler's init hook calls
`start()`, whose loop is driven by the envelope sitting in port 2's
transport queue. -/
def deliveredWorld : WorldState × Option ExitReason :=
  setOnmessage postedWorld.1 1 ((postedWorld.1.queues.getD 1 []).map RecvEvent.data)

/-- Counterexample to C5 as stated: after
`port2.addEventListener("message", onMsg); port1.postMessage({a:1})` the
receive loop has not been started (`enabled` is false and no `start()` ran),
no "message" event has been dispatched (`onMsg` did not fire), even though
the envelope is waiting in port 2's transport queue — `addEventListener`
alone is not semantically equivalent to calling `start()`. -/
theorem addEventListener_does_not_start :
    (getPort postedWorld.1 1).enabled = false ∧
    postedWorld.1.eventLog = [] ∧
    postedWorld.1.queues.getD 1 [] ≠ [] := by
  refine ⟨rfl, rfl, by decide⟩

/-- C5 (amended): `port2.addEventListener("message", onMsg)` marks port 2 as
ref'd and increments the process-wide listener count, but does not start the
receive loop — after `port1.postMessage({a:1})` nothing is delivered. The
loop starts when the `onmessage` event-handler property is assigned (its
init hook calls `start()`) or `start()` is called explicitly; once started,
`onMsg` fires exactly once with data `{a:1}` (the delivered root 3 is the
fresh deep copy of the composite-over-primitive graph) and an empty ports
list. -/
theorem addEventListener_refs_and_onmessage_delivers :
    (getPort listenWorld 1).refed = true ∧
    listenWorld.listenerCount = abWorld.listenerCount + 1 ∧
    (getPort postedWorld.1 1).enabled = false ∧
    postedWorld.1.eventLog = [] ∧
    (deliveredWorld.1.eventLog = [⟨1, EventKind.message 3 []⟩] ∧
      deliveredWorld.1.valueHeap.getD 3 (Node.prim 0) = Node.composite [2] ∧
      deliveredWorld.1.valueHeap.getD 2 (Node.prim 0) = Node.prim 1 ∧
      (getPort deliveredWorld.1 1).enabled = true) := by
  refine ⟨rfl, rfl, rfl, rfl, rfl, rfl, rfl, rfl⟩

/-! ### C8: positional re-attachment of transferables on receipt -/

/-- The completely empty world. -/
def emptyWorld : WorldState := ⟨[], [], [], 0, [], [], [], [], []⟩

/-- C8 evaluated at the failing inputs: for an envelope with the single
descriptor `arrayBuffer [1,2,3]`, the code records
`ArrayPrototypePush(transferables, null)` — the new length, one past the
placeholder — as the splice index, so the returned transferred-objects list
is `[null, buffer]` (two slots for one descriptor, the placeholder left
null, the buffer at index 1). For `[arrayBuffer [5], messagePort 7]` the
splice at index 1 overwrites the materialized port, which is lost from the
returned list even though it was created and bound to transport id 7. The
claim's one-slot-per-descriptor, same-index splice would instead give
`[buffer]` and `[buffer, port]`. -/
theorem deserialize_buffer_splice_off_by_one :
    (deserializeJsMessageData emptyWorld
        ⟨Bytes.good [Node.prim 0] 0, [TDesc.arrayBuffer [1, 2, 3]]⟩).2 =
      .ok (0, [TObj.nullv, TObj.buf 0]) ∧
    (deserializeJsMessageData emptyWorld
        ⟨Bytes.good [Node.prim 0] 0,
          [TDesc.arrayBuffer [5], TDesc.messagePort 7]⟩).2 =
      .ok (0, [TObj.nullv, TObj.buf 0]) ∧
    (getPort (deserializeJsMessageData emptyWorld
        ⟨Bytes.good [Node.prim 0] 0,
          [TDesc.arrayBuffer [5], TDesc.messagePort 7]⟩).1 0).transportId = some 7 := by
  refine ⟨rfl, rfl, rfl⟩

/-! ### C2: structuredClone with empty transfer list is a fresh deep copy -/

/-- The heap references a node carries (the children of a composite). -/
def nodeChildren : Node → List Nat
  | .composite cs => cs
  | _ => []

theorem encodeNode_nil_ok {n n2 : Node} (h : encodeNode [] n = .ok n2) :
    n2 = n ∧ ∀ (hp : List Nat) (off : Nat), decodeNode hp off n = .ok (shiftNode off n) := by
  cases n with
  | prim m =>
    refine ⟨?_, fun hp off => rfl⟩
    simpa [encodeNode] using h.symm
  | composite cs =>
    refine ⟨?_, fun hp off => rfl⟩
    simpa [encodeNode] using h.symm
  | portLeaf p => simp [encodeNode, List.findIdx?] at h
  | hostRef k => simp [encodeNode] at h

theorem encodeHeap_nil_ok {h h2 : List Node} (henc : encodeHeap [] h = .ok h2) :
    h2 = h ∧ ∀ (hp : List Nat) (off : Nat),
      decodeHeap hp off h = .ok (h.map (shiftNode off)) := by
  induction h generalizing h2 with
  | nil =>
    simp only [encodeHeap] at henc
    cases henc
    exact ⟨rfl, fun hp off => rfl⟩
  | cons n rest ih =>
    simp only [encodeHeap] at henc
    cases he : encodeNode [] n with
    | error e => rw [he] at henc; cases henc
    | ok n2 =>
      rw [he] at henc
      cases hr : encodeHeap [] rest with
      | error e => rw [hr] at henc; cases henc
      | ok rest2 =>
        rw [hr] at henc
        cases henc
        obtain ⟨hn, hdn⟩ := encodeNode_nil_ok he
        obtain ⟨hrest, hdr⟩ := ih hr
        refine ⟨by rw [hn, hrest], fun hp off => ?_⟩
        simp only [decodeHeap, hdn hp off, hdr hp off, List.map]

/-- Evaluation of `structuredClone` with an empty transfer list: no options
are built, nothing is detached, no addressed store but the value heap is
touched, and the result is the decoded snapshot appended to the heap. -/
theorem structuredClone_empty_eval (st : WorldState) (v : Nat) :
    structuredClone st v [] =
      match encodeHeap [] st.valueHeap with
      | .error e => (st, .error e)
      | .ok enc =>
        if v < enc.length then
          match decodeHeap [] st.valueHeap.length enc with
          | .error e => (st, .error e)
          | .ok dec =>
            ({ st with valueHeap := st.valueHeap ++ dec }, .ok (st.valueHeap.length + v))
        else (st, .error ⟨"root out of range", "MessageDeliveryError"⟩) := by
  cases henc : encodeHeap [] st.valueHeap with
  | error e =>
    simp only [structuredClone, serializeJsMessageData, collectTransferParts, coreSerialize,
      detachBuffers, serializeTransferables, deserializeJsMessageData, deserializeDescsLoop,
      coreDeserialize, allocBuffers, spliceBuffers, List.length_nil, lt_self_iff_false,
      if_false, Option.map_none', Option.getD_none, henc]
  | ok enc =>
    by_cases hv : v < enc.length
    · cases hdec : decodeHeap [] st.valueHeap.length enc with
      | error e =>
        simp only [structuredClone, serializeJsMessageData, collectTransferParts,
          coreSerialize, detachBuffers, serializeTransferables, deserializeJsMessageData,
          deserializeDescsLoop, coreDeserialize, allocBuffers, spliceBuffers,
          List.length_nil, lt_self_iff_false, if_false, Option.map_none', Option.getD_none,
          henc, hdec, hv, if_true]
      | ok dec =>
        simp only [structuredClone, serializeJsMessageData, collectTransferParts,
          coreSerialize, detachBuffers, serializeTransferables, deserializeJsMessageData,
          deserializeDescsLoop, coreDeserialize, allocBuffers, spliceBuffers,
          List.length_nil, lt_self_iff_false, if_false, Option.map_none', Option.getD_none,
          henc, hdec, hv, if_true]
    · simp only [structuredClone, serializeJsMessageData, collectTransferParts,
        coreSerialize, detachBuffers, serializeTransferables, deserializeJsMessageData,
        deserializeDescsLoop, coreDeserialize, allocBuffers, spliceBuffers,
        List.length_nil, lt_self_iff_false, if_false, Option.map_none', Option.getD_none,
        henc, hv]

/-- Every heap reference held by a node of the appended shifted region points
back into the appended region, never into the original prefix. -/
theorem shift_region_children (h : List Node) (i c : Nat) (hi : h.length ≤ i)
    (hc : c ∈ nodeChildren ((h ++ h.map (shiftNode h.length)).getD i (Node.prim 0))) :
    h.length ≤ c := by
  rw [List.getD_eq_getElem?_getD, List.getElem?_append_right hi, List.getElem?_map] at hc
  cases h2 : h[i - h.length]? with
  | none => rw [h2] at hc; simp [nodeChildren] at hc
  | some n =>
    rw [h2] at hc
    cases n with
    | composite cs =>
      simp only [shiftNode, Option.map_some', Option.getD_some, nodeChildren,
        List.mem_map] at hc
      obtain ⟨a, _, rfl⟩ := hc
      omega
    | prim m => simp [shiftNode, nodeChildren] at hc
    | portLeaf p => simp [shiftNode, nodeChildren] at hc
    | hostRef k => simp [shiftNode, nodeChildren] at hc

/-- C2: for every value `v` (acyclic or cyclic — heap nodes may reference
any index, including their own) on which `structuredClone(v)` with an empty
transfer list succeeds, the result is the root of a fresh deep copy: the
clone is exactly the image of the whole value graph under the index renaming
`+ length` appended after the untouched original heap (structural equality
via that renaming, with all other world components — ports, buffers,
transport log, queues, events — unchanged, so no transport is involved), and
every reference held by the clone region points into the clone region, so
the copy shares no mutable storage with the original. -/
theorem structuredClone_deep_copy (st : WorldState) (v : Nat)
    (hok : (structuredClone st v []).2.isOk = true) :
    (structuredClone st v []).2 = .ok (st.valueHeap.length + v) ∧
    (structuredClone st v []).1 =
      { st with valueHeap :=
          st.valueHeap ++ st.valueHeap.map (shiftNode st.valueHeap.length) } ∧
    ∀ i : Nat, st.valueHeap.length ≤ i →
      ∀ c ∈ nodeChildren ((structuredClone st v []).1.valueHeap.getD i (Node.prim 0)),
        st.valueHeap.length ≤ c := by
  have heval := structuredClone_empty_eval st v
  cases henc : encodeHeap [] st.valueHeap with
  | error e =>
    rw [henc] at heval
    dsimp only at heval
    rw [heval] at hok
    simp [Except.isOk, Except.toBool] at hok
  | ok enc =>
    obtain ⟨henc_eq, hdec⟩ := encodeHeap_nil_ok henc
    subst henc_eq
    rw [henc] at heval
    dsimp only at heval
    by_cases hv : v < st.valueHeap.length
    · rw [if_pos hv, hdec [] st.valueHeap.length] at heval
      dsimp only at heval
      refine ⟨by rw [heval], by rw [heval], ?_⟩
      intro i hi c hc
      rw [heval] at hc
      exact shift_region_children st.valueHeap i c hi hc
    · rw [if_neg hv] at heval
      rw [heval] at hok
      simp [Except.isOk, Except.toBool] at hok

/-- A world whose heap holds a cyclic value: node 0 references node 1 and
itself. -/
def cyclicWorld : WorldState :=
  ⟨[], [], [Node.composite [1, 0], Node.prim 7], 0, [], [], [], [], []⟩

/-- Witness for C2 at a concrete cyclic value. -/
theorem structuredClone_deep_copy_witness :
    (structuredClone cyclicWorld 0 []).2.isOk = true ∧
    ((structuredClone cyclicWorld 0 []).2 = .ok (cyclicWorld.valueHeap.length + 0) ∧
      (structuredClone cyclicWorld 0 []).1 =
        { cyclicWorld with valueHeap :=
            cyclicWorld.valueHeap ++
              cyclicWorld.valueHeap.map (shiftNode cyclicWorld.valueHeap.length) } ∧
      ∀ i : Nat, cyclicWorld.valueHeap.length ≤ i →
        ∀ c ∈ nodeChildren ((structuredClone cyclicWorld 0 []).1.valueHeap.getD i
            (Node.prim 0)),
          cyclicWorld.valueHeap.length ≤ c) :=
  ⟨by decide, structuredClone_deep_copy cyclicWorld 0 (by decide)⟩

/-! ### Serialization-side preservation lemmas -/

theorem detachBuffers_fields (tabs : List Nat) :
    ∀ (st : WorldState) (j : Nat),
      (detachBuffers st tabs j).1.ports = st.ports ∧
      (detachBuffers st tabs j).1.transportLog = st.transportLog ∧
      (detachBuffers st tabs j).1.valueHeap = st.valueHeap := by
  induction tabs with
  | nil => intro st j; exact ⟨rfl, rfl, rfl⟩
  | cons b rest ih =>
    intro st j
    simp only [detachBuffers]
    by_cases hd : (getBuf st b).detached = true
    · rw [if_pos hd]
      exact ⟨rfl, rfl, rfl⟩
    · rw [if_neg hd]
      rcases hR : detachBuffers (setBuf st b ⟨[], true⟩) rest (j + 1) with ⟨st2, r⟩
      have := ih (setBuf st b ⟨[], true⟩) (j + 1)
      rw [hR] at this
      exact this

theorem coreSerialize_fields (st : WorldState) (root : Nat) (opts : Option SerOpts) :
    (coreSerialize st root opts).1.ports = st.ports ∧
    (coreSerialize st root opts).1.transportLog = st.transportLog ∧
    (coreSerialize st root opts).1.valueHeap = st.valueHeap := by
  unfold coreSerialize
  rcases hR : detachBuffers st ((opts.map SerOpts.transferredArrayBuffers).getD []) 0
    with ⟨st1, rd⟩
  have hf := detachBuffers_fields ((opts.map SerOpts.transferredArrayBuffers).getD []) st 0
  rw [hR] at hf
  simp only [hR]
  cases rd with
  | error e => exact hf
  | ok contents =>
    cases he : encodeHeap ((opts.map SerOpts.hostObjects).getD []) st1.valueHeap with
    | error e => exact hf
    | ok enc => exact hf

theorem serializeTransferables_fields (ts : List TransferEntry) :
    ∀ (st : WorldState) (c : List (List Nat)) (i : Nat),
      (serializeTransferables st ts c i).1.ports.length = st.ports.length ∧
      (serializeTransferables st ts c i).1.transportLog = st.transportLog ∧
      (serializeTransferables st ts c i).1.buffers = st.buffers ∧
      (serializeTransferables st ts c i).1.valueHeap = st.valueHeap ∧
      (serializeTransferables st ts c i).1.queues = st.queues ∧
      (serializeTransferables st ts c i).1.eventLog = st.eventLog := by
  induction ts with
  | nil => intro st c i; exact ⟨rfl, rfl, rfl, rfl, rfl, rfl⟩
  | cons e rest ih =>
    intro st c i
    cases e with
    | other => exact ⟨rfl, rfl, rfl, rfl, rfl, rfl⟩
    | buffer b =>
      simp only [serializeTransferables]
      rcases hR : serializeTransferables st rest c (i + 1) with ⟨st2, r⟩
      have := ih st c (i + 1)
      rw [hR] at this
      exact this
    | port q =>
      simp only [serializeTransferables]
      cases hq : (getPort st q).transportId with
      | none => exact ⟨rfl, rfl, rfl, rfl, rfl, rfl⟩
      | some id =>
        rcases hR : serializeTransferables (setPortId st q none) rest c i with ⟨st2, r⟩
        have := ih (setPortId st q none) c i
        rw [hR] at this
        simp only [setPortId, setPort] at this
        refine ⟨?_, this.2.1, this.2.2.1, this.2.2.2.1, this.2.2.2.2.1, this.2.2.2.2.2⟩
        rw [this.1]
        simp

/-! ### Stage decomposition of `serializeJsMessageData` -/

theorem SJMD_collect_error (st : WorldState) (root : Nat) (t : List TransferEntry)
    (e : DomError) (hc : collectTransferParts st t 0 = .error e) :
    serializeJsMessageData st root t = (st, .error e) := by
  simp only [serializeJsMessageData, hc]

theorem SJMD_eval (st : WorldState) (root : Nat) (t : List TransferEntry)
    (parts : List Nat × List Nat) (hc : collectTransferParts st t 0 = .ok parts) :
    serializeJsMessageData st root t =
      (match (coreSerialize st root
          (if 0 < t.length then some ⟨parts.2, parts.1⟩ else none)).2 with
      | .error e =>
        ((coreSerialize st root
          (if 0 < t.length then some ⟨parts.2, parts.1⟩ else none)).1, .error e)
      | .ok br =>
        match (serializeTransferables (coreSerialize st root
            (if 0 < t.length then some ⟨parts.2, parts.1⟩ else none)).1 t br.2 0).2 with
        | .error e =>
          ((serializeTransferables (coreSerialize st root
            (if 0 < t.length then some ⟨parts.2, parts.1⟩ else none)).1 t br.2 0).1,
            .error e)
        | .ok descs =>
          ((serializeTransferables (coreSerialize st root
            (if 0 < t.length then some ⟨parts.2, parts.1⟩ else none)).1 t br.2 0).1,
            .ok ⟨br.1, descs⟩)) := by
  simp only [serializeJsMessageData, hc]

/-! ### Every serialization failure is a DataCloneError -/

theorem collect_error_name (ts : List TransferEntry) :
    ∀ (st : WorldState) (j : Nat) (e : DomError),
      collectTransferParts st ts j = .error e → e.name = "DataCloneError" := by
  induction ts with
  | nil => intro st j e h; cases h
  | cons x rest ih =>
    intro st j e h
    cases x with
    | buffer b =>
      simp only [collectTransferParts] at h
      by_cases hd : (getBuf st b).content.length = 0 ∧ (getBuf st b).detached = true
      · rw [if_pos hd] at h
        cases h
        rfl
      · rw [if_neg hd] at h
        cases hr : collectTransferParts st rest (j + 1) with
        | error e2 => rw [hr] at h; cases h; exact ih st (j + 1) e hr
        | ok pr => rw [hr] at h; cases h
    | port q =>
      simp only [collectTransferParts] at h
      cases hr : collectTransferParts st rest j with
      | error e2 => rw [hr] at h; cases h; exact ih st j e hr
      | ok pr => rw [hr] at h; cases h
    | other =>
      simp only [collectTransferParts] at h
      exact ih st j e h

theorem detach_error_name (tabs : List Nat) :
    ∀ (st : WorldState) (j : Nat) (e : DomError),
      (detachBuffers st tabs j).2 = .error e → e.name = "DataCloneError" := by
  induction tabs with
  | nil => intro st j e h; cases h
  | cons b rest ih =>
    intro st j e h
    simp only [detachBuffers] at h
    by_cases hd : (getBuf st b).detached = true
    · rw [if_pos hd] at h
      cases h
      rfl
    · rw [if_neg hd] at h
      rcases hr : detachBuffers (setBuf st b ⟨[], true⟩) rest (j + 1) with ⟨st2, r⟩
      rw [hr] at h
      cases r with
      | error e2 =>
        simp only [Except.map] at h
        cases h
        have := ih (setBuf st b ⟨[], true⟩) (j + 1) e
        rw [hr] at this
        exact this rfl
      | ok cs => simp only [Except.map] at h; cases h

theorem encodeNode_error_name (hostObjs : List Nat) (n : Node) (e : DomError)
    (h : encodeNode hostObjs n = .error e) : e.name = "DataCloneError" := by
  cases n with
  | prim m => cases h
  | composite cs => cases h
  | portLeaf p =>
    simp only [encodeNode] at h
    cases hf : hostObjs.findIdx? (fun q => q = p) with
    | none => rw [hf] at h; cases h; rfl
    | some k => rw [hf] at h; cases h
  | hostRef k =>
    simp only [encodeNode] at h
    cases h
    rfl

theorem encodeHeap_error_name (hostObjs : List Nat) (hs : List Node) :
    ∀ e : DomError, encodeHeap hostObjs hs = .error e → e.name = "DataCloneError" := by
  induction hs with
  | nil => intro e h; cases h
  | cons n rest ih =>
    intro e h
    simp only [encodeHeap] at h
    cases he : encodeNode hostObjs n with
    | error e2 =>
      rw [he] at h
      cases h
      exact encodeNode_error_name hostObjs n e he
    | ok n2 =>
      rw [he] at h
      cases hr : encodeHeap hostObjs rest with
      | error e2 => rw [hr] at h; cases h; exact ih e hr
      | ok rest2 => rw [hr] at h; cases h

theorem coreSerialize_error_name (st : WorldState) (root : Nat) (opts : Option SerOpts)
    (e : DomError) (h : (coreSerialize st root opts).2 = .error e) :
    e.name = "DataCloneError" := by
  unfold coreSerialize at h
  dsimp only at h
  rcases hR : detachBuffers st ((opts.map SerOpts.transferredArrayBuffers).getD []) 0
    with ⟨st1, rd⟩
  rw [hR] at h
  cases rd with
  | error e2 =>
    cases h
    have := detach_error_name ((opts.map SerOpts.transferredArrayBuffers).getD []) st 0 e
    rw [hR] at this
    exact this rfl
  | ok contents =>
    cases he : encodeHeap ((opts.map SerOpts.hostObjects).getD []) st1.valueHeap with
    | error e2 =>
      rw [he] at h
      cases h
      exact encodeHeap_error_name _ _ e he
    | ok enc => rw [he] at h; cases h

theorem serTrans_error_name (ts : List TransferEntry) :
    ∀ (st : WorldState) (c : List (List Nat)) (i : Nat) (e : DomError),
      (serializeTransferables st ts c i).2 = .error e → e.name = "DataCloneError" := by
  induction ts with
  | nil => intro st c i e h; cases h
  | cons x rest ih =>
    intro st c i e h
    cases x with
    | other => cases h; rfl
    | buffer b =>
      simp only [serializeTransferables] at h
      rcases hr : serializeTransferables st rest c (i + 1) with ⟨st2, r⟩
      rw [hr] at h
      cases r with
      | error e2 =>
        simp only [Except.map] at h
        cases h
        have := ih st c (i + 1) e
        rw [hr] at this
        exact this rfl
      | ok ds => simp only [Except.map] at h; cases h
    | port q =>
      simp only [serializeTransferables] at h
      cases hq : (getPort st q).transportId with
      | none => rw [hq] at h; cases h; rfl
      | some id =>
        rw [hq] at h
        rcases hr : serializeTransferables (setPortId st q none) rest c i with ⟨st2, r⟩
        rw [hr] at h
        cases r with
        | error e2 =>
          simp only [Except.map] at h
          cases h
          have := ih (setPortId st q none) c i e
          rw [hr] at this
          exact this rfl
        | ok ds => simp only [Except.map] at h; cases h

theorem SJMD_error_name (st : WorldState) (root : Nat) (t : List TransferEntry)
    (e : DomError) (h : (serializeJsMessageData st root t).2 = .error e) :
    e.name = "DataCloneError" := by
  cases hc : collectTransferParts st t 0 with
  | error e2 =>
    rw [SJMD_collect_error st root t e2 hc] at h
    cases h
    exact collect_error_name t st 0 e hc
  | ok parts =>
    rw [SJMD_eval st root t parts hc] at h
    cases hcs : (coreSerialize st root
        (if 0 < t.length then some ⟨parts.2, parts.1⟩ else none)).2 with
    | error e2 =>
      rw [hcs] at h
      cases h
      exact coreSerialize_error_name st root _ e hcs
    | ok br =>
      rw [hcs] at h
      dsimp only at h
      cases hst : (serializeTransferables (coreSerialize st root
          (if 0 < t.length then some ⟨parts.2, parts.1⟩ else none)).1 t br.2 0).2 with
      | error e2 =>
        rw [hst] at h
        cases h
        exact serTrans_error_name t _ br.2 0 e hst
      | ok descs => rw [hst] at h; cases h

theorem postMessage_error_name (st : WorldState) (self root : Nat)
    (t : List TransferEntry) (e : DomError)
    (h : (postMessage st self root t).2 = .error e) : e.name = "DataCloneError" := by
  unfold postMessage at h
  by_cases hself : TransferEntry.port self ∈ t
  · rw [if_pos hself] at h
    cases h
    rfl
  · rw [if_neg hself] at h
    rcases hs : serializeJsMessageData st root t with ⟨st1, r⟩
    rw [hs] at h
    dsimp only at h
    cases r with
    | error e2 =>
      cases h
      have := SJMD_error_name st root t e
      rw [hs] at this
      exact this rfl
    | ok md =>
      dsimp only at h
      cases hid : (getPort st1 self).transportId with
      | none => rw [hid] at h; cases h
      | some i => rw [hid] at h; cases h

/-! ### Transport-log preservation and port invalidation through serialization -/

theorem getPort_congr_ports (st1 st2 : WorldState) (q : Nat) (h : st1.ports = st2.ports) :
    getPort st1 q = getPort st2 q := by
  simp [getPort, h]

theorem getPort_oor (st : WorldState) (q : Nat) (h : st.ports.length ≤ q) :
    getPort st q = defaultPort := by
  simp [getPort, List.getD, List.getElem?_eq_none h]

theorem getPort_some_in_range (st : WorldState) (q i : Nat)
    (h : (getPort st q).transportId = some i) : q < st.ports.length := by
  by_contra hge
  rw [getPort_oor st q (le_of_not_lt hge)] at h
  cases h

theorem setPortId_oor (st : WorldState) (p : Nat) (v : Option Nat)
    (hr : st.ports.length ≤ p) : setPortId st p v = st := by
  have hset : st.ports.set p { getPort st p with transportId := v } = st.ports :=
    List.set_eq_of_length_le hr
  simp only [setPortId, setPort, hset]

theorem transportId_none_setPortId (st : WorldState) (p q : Nat)
    (h : (getPort st q).transportId = none) :
    (getPort (setPortId st p none) q).transportId = none := by
  by_cases hpq : p = q
  · subst hpq
    by_cases hr : p < st.ports.length
    · rw [getPort_setPortId_self st p none hr]
    · rw [setPortId_oor st p none (le_of_not_lt hr)]
      exact h
  · have := getPort_setPort_ne st p q { getPort st p with transportId := none } hpq
    simp only [setPortId]
    rw [this]
    exact h

theorem serTrans_null_stable (ts : List TransferEntry) :
    ∀ (st : WorldState) (c : List (List Nat)) (i q : Nat),
      (getPort st q).transportId = none →
      (getPort (serializeTransferables st ts c i).1 q).transportId = none := by
  induction ts with
  | nil => intro st c i q h; exact h
  | cons x rest ih =>
    intro st c i q h
    cases x with
    | other => exact h
    | buffer b =>
      simp only [serializeTransferables]
      rcases hr : serializeTransferables st rest c (i + 1) with ⟨st2, r⟩
      have := ih st c (i + 1) q h
      rw [hr] at this
      exact this
    | port pq =>
      simp only [serializeTransferables]
      cases hq : (getPort st pq).transportId with
      | none => exact h
      | some id =>
        rcases hr : serializeTransferables (setPortId st pq none) rest c i with ⟨st2, r⟩
        have := ih (setPortId st pq none) c i q (transportId_none_setPortId st pq q h)
        rw [hr] at this
        exact this

theorem serTrans_ok_mem_null (ts : List TransferEntry) :
    ∀ (st : WorldState) (c : List (List Nat)) (i : Nat) (ds : List TDesc),
      (serializeTransferables st ts c i).2 = .ok ds →
      ∀ p : Nat, TransferEntry.port p ∈ ts →
        (getPort (serializeTransferables st ts c i).1 p).transportId = none := by
  induction ts with
  | nil => intro st c i ds hok p hp; cases hp
  | cons x rest ih =>
    intro st c i ds hok p hp
    cases x with
    | other => cases hok
    | buffer b =>
      have hp2 : TransferEntry.port p ∈ rest := by
        rcases List.mem_cons.mp hp with heq | h2
        · cases heq
        · exact h2
      simp only [serializeTransferables] at hok ⊢
      rcases hr : serializeTransferables st rest c (i + 1) with ⟨st2, r⟩
      rw [hr] at hok
      cases r with
      | error e => simp only [Except.map] at hok; cases hok
      | ok ds2 =>
        have := ih st c (i + 1) ds2 (by rw [hr]) p hp2
        rw [hr] at this
        exact this
    | port q =>
      simp only [serializeTransferables] at hok ⊢
      cases hq : (getPort st q).transportId with
      | none => rw [hq] at hok; cases hok
      | some id =>
        rw [hq] at hok
        rcases hr : serializeTransferables (setPortId st q none) rest c i with ⟨st2, r⟩
        rw [hr] at hok
        cases r with
        | error e => simp only [Except.map] at hok; cases hok
        | ok ds2 =>
          rcases List.mem_cons.mp hp with heq | hp2
          · have hpq : p = q := by cases heq; rfl
            subst hpq
            have hqr : p < st.ports.length := getPort_some_in_range st p id hq
            have hnull : (getPort (setPortId st p none) p).transportId = none := by
              rw [getPort_setPortId_self st p none hqr]
            have := serTrans_null_stable rest (setPortId st p none) c i p hnull
            rw [hr] at this
            exact this
          · have := ih (setPortId st q none) c i ds2 (by rw [hr]) p hp2
            rw [hr] at this
            exact this

theorem SJMD_log (st : WorldState) (root : Nat) (t : List TransferEntry) :
    (serializeJsMessageData st root t).1.transportLog = st.transportLog := by
  cases hc : collectTransferParts st t 0 with
  | error e => rw [SJMD_collect_error st root t e hc]
  | ok parts =>
    rw [SJMD_eval st root t parts hc]
    have hcf := coreSerialize_fields st root
      (if 0 < t.length then some ⟨parts.2, parts.1⟩ else none)
    cases hcs : (coreSerialize st root
        (if 0 < t.length then some ⟨parts.2, parts.1⟩ else none)).2 with
    | error e => exact hcf.2.1
    | ok br =>
      have hsf := serializeTransferables_fields t
        (coreSerialize st root
          (if 0 < t.length then some ⟨parts.2, parts.1⟩ else none)).1 br.2 0
      cases hst : (serializeTransferables (coreSerialize st root
          (if 0 < t.length then some ⟨parts.2, parts.1⟩ else none)).1 t br.2 0).2 with
      | error e =>
        dsimp only
        rw [hst]
        dsimp only
        rw [hsf.2.1]
        exact hcf.2.1
      | ok descs =>
        dsimp only
        rw [hst]
        dsimp only
        rw [hsf.2.1]
        exact hcf.2.1

theorem SJMD_ok_mem_null (st : WorldState) (root : Nat) (t : List TransferEntry)
    (md : MessageData) (hok : (serializeJsMessageData st root t).2 = .ok md)
    (p : Nat) (hp : TransferEntry.port p ∈ t) :
    (getPort (serializeJsMessageData st root t).1 p).transportId = none := by
  cases hc : collectTransferParts st t 0 with
  | error e =>
    rw [SJMD_collect_error st root t e hc] at hok
    cases hok
  | ok parts =>
    rw [SJMD_eval st root t parts hc] at hok ⊢
    cases hcs : (coreSerialize st root
        (if 0 < t.length then some ⟨parts.2, parts.1⟩ else none)).2 with
    | error e =>
      rw [hcs] at hok
      dsimp only at hok
      cases hok
    | ok br =>
      rw [hcs] at hok
      dsimp only at hok ⊢
      cases hst : (serializeTransferables (coreSerialize st root
          (if 0 < t.length then some ⟨parts.2, parts.1⟩ else none)).1 t br.2 0).2 with
      | error e =>
        rw [hst] at hok
        dsimp only at hok
        cases hok
      | ok descs =>
        dsimp only
        exact serTrans_ok_mem_null t _ br.2 0 descs hst p hp

theorem SJMD_null_stable (st : WorldState) (root : Nat) (t : List TransferEntry)
    (q : Nat) (h : (getPort st q).transportId = none) :
    (getPort (serializeJsMessageData st root t).1 q).transportId = none := by
  cases hc : collectTransferParts st t 0 with
  | error e => rw [SJMD_collect_error st root t e hc]; exact h
  | ok parts =>
    rw [SJMD_eval st root t parts hc]
    have hcf := coreSerialize_fields st root
      (if 0 < t.length then some ⟨parts.2, parts.1⟩ else none)
    have hto : (getPort (coreSerialize st root
        (if 0 < t.length then some ⟨parts.2, parts.1⟩ else none)).1 q).transportId = none := by
      rw [getPort_congr_ports _ st q hcf.1]
      exact h
    cases hcs : (coreSerialize st root
        (if 0 < t.length then some ⟨parts.2, parts.1⟩ else none)).2 with
    | error e => exact hto
    | ok br =>
      dsimp only
      cases hst : (serializeTransferables (coreSerialize st root
          (if 0 < t.length then some ⟨parts.2, parts.1⟩ else none)).1 t br.2 0).2 with
      | error e => exact serTrans_null_stable t _ br.2 0 q hto
      | ok descs => exact serTrans_null_stable t _ br.2 0 q hto

/-! ### C1: transfer invalidation is synchronous with serialization -/

/-- C1: when `postMessage` is called with a transfer list containing an
entangled endpoint `p` (not the posting endpoint) and serialization
succeeds, `p`'s transport id is already `null` in the state produced by
`serializeJsMessageData` — synchronously, before any transport post could
happen (serialization leaves the transport log untouched). In particular,
when the posting endpoint's own transport id is `null`, the call returns as
a silent no-op in exactly that serializer state: no transport interaction at
all, yet `p` is invalidated. -/
theorem postMessage_invalidates_before_any_post (st : WorldState)
    (self p root : Nat) (t : List TransferEntry)
    (hself : TransferEntry.port self ∉ t)
    (hp : TransferEntry.port p ∈ t)
    (hpid : (getPort st p).transportId ≠ none)
    (hselfid : (getPort st self).transportId = none)
    (hok : (serializeJsMessageData st root t).2.isOk = true) :
    postMessage st self root t = ((serializeJsMessageData st root t).1, .ok ()) ∧
    (getPort (serializeJsMessageData st root t).1 p).transportId = none ∧
    (serializeJsMessageData st root t).1.transportLog = st.transportLog := by
  obtain ⟨md, hmd⟩ : ∃ md, (serializeJsMessageData st root t).2 = .ok md := by
    cases h2 : (serializeJsMessageData st root t).2 with
    | error e => rw [h2] at hok; simp [Except.isOk, Except.toBool] at hok
    | ok md => exact ⟨md, rfl⟩
  have hpair : serializeJsMessageData st root t =
      ((serializeJsMessageData st root t).1, .ok md) := by
    rw [← hmd]
  have hnull_self := SJMD_null_stable st root t self hselfid
  refine ⟨?_, SJMD_ok_mem_null st root t md hmd p hp, SJMD_log st root t⟩
  unfold postMessage
  rw [if_neg hself, hpair]
  dsimp only
  rw [hnull_self]

/-- A world with the posting endpoint (port 0) already disentangled and an
entangled endpoint (port 1, transport id 5) to transfer. -/
def c1World : WorldState :=
  ⟨[⟨none, false, false, false, false, false⟩,
    ⟨some 5, false, false, false, false, false⟩],
   [], [Node.prim 0], 0, [], [], [], [], []⟩

/-- Witness for C1 at a concrete silent no-op post transferring port 1. -/
theorem postMessage_invalidates_before_any_post_witness :
    (TransferEntry.port 0 ∉ [TransferEntry.port 1] ∧
      TransferEntry.port 1 ∈ [TransferEntry.port 1] ∧
      (getPort c1World 1).transportId ≠ none ∧
      (getPort c1World 0).transportId = none ∧
      (serializeJsMessageData c1World 0 [TransferEntry.port 1]).2.isOk = true) ∧
    (postMessage c1World 0 0 [TransferEntry.port 1] =
      ((serializeJsMessageData c1World 0 [TransferEntry.port 1]).1, .ok ()) ∧
    (getPort (serializeJsMessageData c1World 0 [TransferEntry.port 1]).1 1).transportId =
      none ∧
    (serializeJsMessageData c1World 0 [TransferEntry.port 1]).1.transportLog =
      c1World.transportLog) :=
  ⟨⟨by decide, by decide, by decide, by decide, by decide⟩,
   postMessage_invalidates_before_any_post c1World 0 1 0 [TransferEntry.port 1]
     (by decide) (by decide) (by decide) (by decide) (by decide)⟩

/-! ### C7: detached or duplicated buffers fail before any transport interaction -/

/-- The buffer entries of a transfer list, in order (what the first
serialization loop collects into `transferredArrayBuffers`). -/
def bufferRefs (ts : List TransferEntry) : List Nat :=
  ts.filterMap (fun e => match e with | .buffer b => some b | _ => none)

theorem collect_ok_bufs (ts : List TransferEntry) :
    ∀ (st : WorldState) (j : Nat) (parts : List Nat × List Nat),
      collectTransferParts st ts j = .ok parts → parts.1 = bufferRefs ts := by
  induction ts with
  | nil =>
    intro st j parts h
    cases h
    rfl
  | cons x rest ih =>
    intro st j parts h
    cases x with
    | buffer b =>
      simp only [collectTransferParts] at h
      by_cases hd : (getBuf st b).content.length = 0 ∧ (getBuf st b).detached = true
      · rw [if_pos hd] at h; cases h
      · rw [if_neg hd] at h
        cases hr : collectTransferParts st rest (j + 1) with
        | error e => rw [hr] at h; cases h
        | ok pr =>
          rw [hr] at h
          cases h
          dsimp only
          rw [ih st (j + 1) pr hr]
          simp [bufferRefs, List.filterMap_cons]
    | port q =>
      simp only [collectTransferParts] at h
      cases hr : collectTransferParts st rest j with
      | error e => rw [hr] at h; cases h
      | ok pr =>
        rw [hr] at h
        cases h
        dsimp only
        rw [ih st j pr hr]
        simp [bufferRefs, List.filterMap_cons]
    | other =>
      simp only [collectTransferParts] at h
      rw [ih st j parts h]
      simp [bufferRefs, List.filterMap_cons]

theorem collect_ok_no_detached (ts : List TransferEntry) :
    ∀ (st : WorldState) (j : Nat) (parts : List Nat × List Nat),
      collectTransferParts st ts j = .ok parts →
      ∀ b : Nat, TransferEntry.buffer b ∈ ts →
        ¬((getBuf st b).content.length = 0 ∧ (getBuf st b).detached = true) := by
  induction ts with
  | nil => intro st j parts h b hb; cases hb
  | cons x rest ih =>
    intro st j parts h b hb
    cases x with
    | buffer b2 =>
      simp only [collectTransferParts] at h
      by_cases hd : (getBuf st b2).content.length = 0 ∧ (getBuf st b2).detached = true
      · rw [if_pos hd] at h; cases h
      · rw [if_neg hd] at h
        rcases List.mem_cons.mp hb with heq | hb2
        · have : b = b2 := by cases heq; rfl
          subst this
          exact hd
        · cases hr : collectTransferParts st rest (j + 1) with
          | error e => rw [hr] at h; cases h
          | ok pr => exact ih st (j + 1) pr hr b hb2
    | port q =>
      simp only [collectTransferParts] at h
      have hb2 : TransferEntry.buffer b ∈ rest := by
        rcases List.mem_cons.mp hb with heq | hb2
        · cases heq
        · exact hb2
      cases hr : collectTransferParts st rest j with
      | error e => rw [hr] at h; cases h
      | ok pr => exact ih st j pr hr b hb2
    | other =>
      simp only [collectTransferParts] at h
      have hb2 : TransferEntry.buffer b ∈ rest := by
        rcases List.mem_cons.mp hb with heq | hb2
        · cases heq
        · exact hb2
      exact ih st j parts h b hb2

theorem detach_buffers_length (tabs : List Nat) :
    ∀ (st : WorldState) (j : Nat),
      (detachBuffers st tabs j).1.buffers.length = st.buffers.length := by
  induction tabs with
  | nil => intro st j; rfl
  | cons b rest ih =>
    intro st j
    simp only [detachBuffers]
    by_cases hd : (getBuf st b).detached = true
    · rw [if_pos hd]
    · rw [if_neg hd]
      rcases hR : detachBuffers (setBuf st b ⟨[], true⟩) rest (j + 1) with ⟨st2, r⟩
      have := ih (setBuf st b ⟨[], true⟩) (j + 1)
      rw [hR] at this
      simp only [setBuf] at this
      simpa using this

theorem detach_ok_not_detached (tabs : List Nat) :
    ∀ (st : WorldState) (j : Nat) (cs : List (List Nat)),
      (detachBuffers st tabs j).2 = .ok cs →
      ∀ b ∈ tabs, (getBuf st b).detached = false := by
  induction tabs with
  | nil => intro st j cs h b hb; cases hb
  | cons b2 rest ih =>
    intro st j cs h b hb
    simp only [detachBuffers] at h
    by_cases hd : (getBuf st b2).detached = true
    · rw [if_pos hd] at h; cases h
    · rw [if_neg hd] at h
      rcases hR : detachBuffers (setBuf st b2 ⟨[], true⟩) rest (j + 1) with ⟨st2, r⟩
      rw [hR] at h
      rcases List.mem_cons.mp hb with heq | hb2
      · subst heq
        exact Bool.eq_false_iff.mpr hd
      · cases r with
        | error e => simp only [Except.map] at h; cases h
        | ok cs2 =>
          have hrest := ih (setBuf st b2 ⟨[], true⟩) (j + 1) cs2 (by rw [hR]) b hb2
          by_cases hbe : b2 = b
          · subst hbe
            exact Bool.eq_false_iff.mpr hd
          · rw [getBuf_setBuf_ne st b2 b ⟨[], true⟩ hbe] at hrest
            exact hrest

theorem detach_append_ok (l1 : List Nat) :
    ∀ (l2 : List Nat) (st : WorldState) (j : Nat) (cs : List (List Nat)),
      (detachBuffers st (l1 ++ l2) j).2 = .ok cs →
      ∃ cs2, (detachBuffers (detachBuffers st l1 j).1 l2 (j + l1.length)).2 = .ok cs2 := by
  induction l1 with
  | nil =>
    intro l2 st j cs h
    exact ⟨cs, h⟩
  | cons b rest ih =>
    intro l2 st j cs h
    simp only [List.cons_append, detachBuffers, List.append_eq] at h ⊢
    by_cases hd : (getBuf st b).detached = true
    · rw [if_pos hd] at h; cases h
    · rw [if_neg hd] at h ⊢
      dsimp only at h ⊢
      cases hR : (detachBuffers (setBuf st b ⟨[], true⟩) (rest ++ l2) (j + 1)).2 with
      | error e => rw [hR] at h; simp only [Except.map] at h; cases h
      | ok cs2 =>
        obtain ⟨cs3, hcs3⟩ := ih l2 (setBuf st b ⟨[], true⟩) (j + 1) cs2 hR
        have hidx : j + (rest.length + 1) = j + 1 + rest.length := by omega
        rw [List.length_cons, hidx]
        exact ⟨cs3, hcs3⟩

/-- Detaching a list headed by a valid buffer that occurs again later in the
list cannot succeed: the head detach leaves the buffer detached, and its
later occurrence then fails. -/
theorem detach_dup_head_absurd (st : WorldState) (b : Nat) (l : List Nat) (j : Nat)
    (hb : b < st.buffers.length) (hmem : b ∈ l) (cs : List (List Nat))
    (h : (detachBuffers st (b :: l) j).2 = .ok cs) : False := by
  simp only [detachBuffers] at h
  by_cases hd : (getBuf st b).detached = true
  · rw [if_pos hd] at h; cases h
  · rw [if_neg hd] at h
    rcases hR : detachBuffers (setBuf st b ⟨[], true⟩) l (j + 1) with ⟨st2, r⟩
    rw [hR] at h
    cases r with
    | error e => simp only [Except.map] at h; cases h
    | ok cs2 =>
      have hfalse := detach_ok_not_detached l (setBuf st b ⟨[], true⟩) (j + 1) cs2
        (by rw [hR]) b hmem
      rw [getBuf_setBuf_self st b ⟨[], true⟩ hb] at hfalse
      cases hfalse

theorem SJMD_ok_stages (st : WorldState) (root : Nat) (t : List TransferEntry)
    (md : MessageData) (h : (serializeJsMessageData st root t).2 = .ok md) :
    ∃ parts : List Nat × List Nat, collectTransferParts st t 0 = .ok parts ∧
      ∃ br, (coreSerialize st root
        (if 0 < t.length then some ⟨parts.2, parts.1⟩ else none)).2 = .ok br := by
  cases hc : collectTransferParts st t 0 with
  | error e =>
    rw [SJMD_collect_error st root t e hc] at h
    cases h
  | ok parts =>
    rw [SJMD_eval st root t parts hc] at h
    cases hcs : (coreSerialize st root
        (if 0 < t.length then some ⟨parts.2, parts.1⟩ else none)).2 with
    | error e =>
      rw [hcs] at h
      dsimp only at h
      cases h
    | ok br => exact ⟨parts, rfl, br, hcs⟩

theorem coreSerialize_ok_detach (st : WorldState) (root : Nat) (opts : Option SerOpts)
    (br : Bytes × List (List Nat)) (h : (coreSerialize st root opts).2 = .ok br) :
    ∃ cs, (detachBuffers st
      ((opts.map SerOpts.transferredArrayBuffers).getD []) 0).2 = .ok cs := by
  unfold coreSerialize at h
  dsimp only at h
  rcases hR : detachBuffers st ((opts.map SerOpts.transferredArrayBuffers).getD []) 0
    with ⟨st1, rd⟩
  rw [hR] at h
  cases rd with
  | error e => cases h
  | ok cs => exact ⟨cs, rfl⟩

theorem postMessage_ok_serialize_ok (st : WorldState) (self root : Nat)
    (t : List TransferEntry) (h : (postMessage st self root t).2 = .ok ()) :
    ∃ md, (serializeJsMessageData st root t).2 = .ok md := by
  unfold postMessage at h
  by_cases hs : TransferEntry.port self ∈ t
  · rw [if_pos hs] at h
    cases h
  · rw [if_neg hs] at h
    rcases hS : serializeJsMessageData st root t with ⟨st1, r⟩
    rw [hS] at h
    dsimp only at h
    cases r with
    | error e => cases h
    | ok md => exact ⟨md, rfl⟩

theorem postMessage_error_log (st : WorldState) (self root : Nat)
    (t : List TransferEntry) (e : DomError)
    (h : (postMessage st self root t).2 = .error e) :
    (postMessage st self root t).1.transportLog = st.transportLog := by
  unfold postMessage at h ⊢
  by_cases hs : TransferEntry.port self ∈ t
  · rw [if_pos hs]
  · rw [if_neg hs] at h ⊢
    rcases hS : serializeJsMessageData st root t with ⟨st1, r⟩
    rw [hS] at h
    dsimp only at h ⊢
    have hlog := SJMD_log st root t
    rw [hS] at hlog
    cases r with
    | error e2 => exact hlog
    | ok md =>
      dsimp only at h
      cases hid : (getPort st1 self).transportId with
      | none => dsimp only; exact hlog
      | some i =>
        rw [hid] at h
        dsimp only at h
        cases h

/-- C7: a transfer list containing an already-detached (zero-length) buffer,
or containing the same valid buffer at two positions, makes `postMessage`
fail with a DataCloneError, and the transport log is untouched — the failure
occurs before any transport interaction. -/
theorem postMessage_detached_or_dup_fails (st : WorldState) (self root b : Nat)
    (t : List TransferEntry) (hb : b < st.buffers.length)
    (hcase :
      (TransferEntry.buffer b ∈ t ∧ (getBuf st b).content.length = 0 ∧
        (getBuf st b).detached = true) ∨
      ∃ l1 l2 l3, t = l1 ++ TransferEntry.buffer b :: (l2 ++ TransferEntry.buffer b :: l3)) :
    (∃ e, (postMessage st self root t).2 = .error e ∧ e.name = "DataCloneError") ∧
    (postMessage st self root t).1.transportLog = st.transportLog := by
  have herr : (postMessage st self root t).2 ≠ .ok () := by
    intro hok2
    obtain ⟨md, hmd⟩ := postMessage_ok_serialize_ok st self root t hok2
    obtain ⟨parts, hc, br, hcs⟩ := SJMD_ok_stages st root t md hmd
    rcases hcase with ⟨hmem, hdet1, hdet2⟩ | ⟨l1, l2, l3, hsplit⟩
    · exact collect_ok_no_detached t st 0 parts hc b hmem ⟨hdet1, hdet2⟩
    · have htlen : 0 < t.length := by rw [hsplit]; simp
      rw [if_pos htlen] at hcs
      obtain ⟨cs, hdetok⟩ := coreSerialize_ok_detach st root _ br hcs
      have htabs : (((some (⟨parts.2, parts.1⟩ : SerOpts)).map
          SerOpts.transferredArrayBuffers).getD []) = parts.1 := rfl
      rw [htabs, collect_ok_bufs t st 0 parts hc, hsplit] at hdetok
      have hbr : bufferRefs (l1 ++ TransferEntry.buffer b ::
          (l2 ++ TransferEntry.buffer b :: l3)) =
          bufferRefs l1 ++ b :: bufferRefs (l2 ++ TransferEntry.buffer b :: l3) := by
        simp [bufferRefs, List.filterMap_append, List.filterMap_cons]
      rw [hbr] at hdetok
      obtain ⟨cs2, hsuffix⟩ := detach_append_ok (bufferRefs l1) _ st 0 cs hdetok
      have hmidlen : b < (detachBuffers st (bufferRefs l1) 0).1.buffers.length := by
        rw [detach_buffers_length]; exact hb
      have hbmem : b ∈ bufferRefs (l2 ++ TransferEntry.buffer b :: l3) := by
        simp [bufferRefs, List.filterMap_append, List.filterMap_cons]
      exact detach_dup_head_absurd _ b _ _ hmidlen hbmem cs2 hsuffix
  obtain ⟨e, he⟩ : ∃ e, (postMessage st self root t).2 = .error e := by
    cases h2 : (postMessage st self root t).2 with
    | error e => exact ⟨e, rfl⟩
    | ok u => cases u; exact absurd h2 herr
  exact ⟨⟨e, he, postMessage_error_name st self root t e he⟩,
    postMessage_error_log st self root t e he⟩

/-- A world with one already-detached zero-length buffer and one open port,
and a second world with one live buffer listed twice. -/
def detachedBufWorld : WorldState :=
  ⟨[⟨some 0, false, false, false, false, false⟩], [⟨[], true⟩], [Node.prim 0],
   0, [], [], [], [], []⟩

/-- Witness for C7: posting with a detached buffer in the transfer list (and,
via the same theorem, the duplicate-buffer case at a live buffer) fails with
a DataCloneError and leaves the transport log untouched. -/
theorem postMessage_detached_or_dup_fails_witness :
    (0 < detachedBufWorld.buffers.length ∧
      TransferEntry.buffer 0 ∈ [TransferEntry.buffer 0] ∧
      (getBuf detachedBufWorld 0).content.length = 0 ∧
      (getBuf detachedBufWorld 0).detached = true) ∧
    ((∃ e, (postMessage detachedBufWorld 0 0 [TransferEntry.buffer 0]).2 = .error e ∧
        e.name = "DataCloneError") ∧
    (postMessage detachedBufWorld 0 0 [TransferEntry.buffer 0]).1.transportLog =
      detachedBufWorld.transportLog) :=
  ⟨⟨by decide, by decide, by decide, by decide⟩,
   postMessage_detached_or_dup_fails detachedBufWorld 0 0 0 [TransferEntry.buffer 0]
     (by decide) (Or.inl ⟨by decide, by decide, by decide⟩)⟩

/-! ### C10: serialization is not atomic on error -/

/-- The port entries of a transfer list, in order (what the first loop
collects into `hostObjects`). -/
def portRefs (ts : List TransferEntry) : List Nat :=
  ts.filterMap (fun e => match e with | .port q => some q | _ => none)

/-- An entry the second serialization loop processes without throwing: a
buffer, or a still-entangled port. -/
def goodEntry (st : WorldState) : TransferEntry → Bool
  | .buffer _ => true
  | .port q => (getPort st q).transportId.isSome
  | .other => false

theorem collect_ok_ports (ts : List TransferEntry) :
    ∀ (st : WorldState) (j : Nat) (parts : List Nat × List Nat),
      collectTransferParts st ts j = .ok parts → parts.2 = portRefs ts := by
  induction ts with
  | nil =>
    intro st j parts h
    cases h
    rfl
  | cons x rest ih =>
    intro st j parts h
    cases x with
    | buffer b =>
      simp only [collectTransferParts] at h
      by_cases hd : (getBuf st b).content.length = 0 ∧ (getBuf st b).detached = true
      · rw [if_pos hd] at h; cases h
      · rw [if_neg hd] at h
        cases hr : collectTransferParts st rest (j + 1) with
        | error e => rw [hr] at h; cases h
        | ok pr =>
          rw [hr] at h
          cases h
          dsimp only
          rw [ih st (j + 1) pr hr]
          simp [portRefs, List.filterMap_cons]
    | port q =>
      simp only [collectTransferParts] at h
      cases hr : collectTransferParts st rest j with
      | error e => rw [hr] at h; cases h
      | ok pr =>
        rw [hr] at h
        cases h
        dsimp only
        rw [ih st j pr hr]
        simp [portRefs, List.filterMap_cons]
    | other =>
      simp only [collectTransferParts] at h
      rw [ih st j parts h]
      simp [portRefs, List.filterMap_cons]

theorem getPort_setPortId_ne (st : WorldState) (p q : Nat) (v : Option Nat)
    (h : p ≠ q) : getPort (setPortId st p v) q = getPort st q := by
  simp only [setPortId]
  exact getPort_setPort_ne st p q _ h

/-- Processing a run of good entries (buffers and pairwise-distinct entangled
ports) followed by a non-transferable entry: the loop reaches the
non-transferable entry and throws "Value not transferable", and by then every
port of the run — which was processed earlier — has been invalidated. -/
theorem serTrans_good_then_other (A : List TransferEntry) :
    ∀ (st : WorldState) (c : List (List Nat)) (i : Nat) (l3 : List TransferEntry),
      (∀ e ∈ A, goodEntry st e = true) → (portRefs A).Nodup →
      (serializeTransferables st (A ++ TransferEntry.other :: l3) c i).2 =
        .error ⟨"Value not transferable", "DataCloneError"⟩ ∧
      ∀ p : Nat, TransferEntry.port p ∈ A →
        (getPort (serializeTransferables st (A ++ TransferEntry.other :: l3) c i).1
          p).transportId = none := by
  induction A with
  | nil =>
    intro st c i l3 hgood hnd
    exact ⟨rfl, fun p hp => absurd hp (by simp)⟩
  | cons x rest ih =>
    intro st c i l3 hgood hnd
    cases x with
    | other =>
      have := hgood TransferEntry.other (List.mem_cons_self _ _)
      simp [goodEntry] at this
    | buffer b =>
      have hgood2 : ∀ e ∈ rest, goodEntry st e = true := fun e he =>
        hgood e (List.mem_cons_of_mem _ he)
      have hnd2 : (portRefs rest).Nodup := by
        simpa [portRefs, List.filterMap_cons] using hnd
      obtain ⟨herr, hnull⟩ := ih st c (i + 1) l3 hgood2 hnd2
      simp only [List.cons_append, serializeTransferables]
      rcases hR : serializeTransferables st (rest ++ TransferEntry.other :: l3) c (i + 1)
        with ⟨st2, r⟩
      rw [hR] at herr
      dsimp only at herr
      subst herr
      refine ⟨rfl, fun p hp => ?_⟩
      have hp2 : TransferEntry.port p ∈ rest := by
        rcases List.mem_cons.mp hp with heq | h2
        · cases heq
        · exact h2
      have := hnull p hp2
      rw [hR] at this
      exact this
    | port q =>
      have hq : (getPort st q).transportId.isSome = true :=
        hgood (TransferEntry.port q) (List.mem_cons_self _ _)
      obtain ⟨id, hid⟩ := Option.isSome_iff_exists.mp hq
      have hqr : q < st.ports.length := getPort_some_in_range st q id hid
      have hqnotin : q ∉ portRefs rest := by
        have := hnd
        simp only [portRefs, List.filterMap_cons] at this
        exact (List.nodup_cons.mp this).1
      have hgood2 : ∀ e ∈ rest, goodEntry (setPortId st q none) e = true := by
        intro e he
        have hg := hgood e (List.mem_cons_of_mem _ he)
        cases e with
        | buffer b2 => rfl
        | other => exact hg
        | port q2 =>
          have hne : q ≠ q2 := by
            intro hqq
            subst hqq
            exact hqnotin (by
              simp only [portRefs, List.mem_filterMap]
              exact ⟨TransferEntry.port q, he, rfl⟩)
          simp only [goodEntry] at hg ⊢
          rw [getPort_setPortId_ne st q q2 none hne]
          exact hg
      have hnd2 : (portRefs rest).Nodup := by
        have := hnd
        simp only [portRefs, List.filterMap_cons] at this
        exact (List.nodup_cons.mp this).2
      obtain ⟨herr, hnull⟩ := ih (setPortId st q none) c i l3 hgood2 hnd2
      simp only [List.cons_append, serializeTransferables, hid]
      rcases hR : serializeTransferables (setPortId st q none)
        (rest ++ TransferEntry.other :: l3) c i with ⟨st2, r⟩
      rw [hR] at herr
      dsimp only at herr
      subst herr
      refine ⟨rfl, fun p hp => ?_⟩
      rcases List.mem_cons.mp hp with heq | hp2
      · have hpq : p = q := by cases heq; rfl
        subst hpq
        have hnul0 : (getPort (setPortId st p none) p).transportId = none := by
          rw [getPort_setPortId_self st p none hqr]
        have := serTrans_null_stable (rest ++ TransferEntry.other :: l3)
          (setPortId st p none) c i p hnul0
        rw [hR] at this
        exact this
      · have := hnull p hp2
        rw [hR] at this
        exact this

theorem coreSerialize_ok_of (st : WorldState) (root : Nat) (opts : Option SerOpts)
    (cs : List (List Nat)) (enc : List Node)
    (hdet : (detachBuffers st
      ((opts.map SerOpts.transferredArrayBuffers).getD []) 0).2 = .ok cs)
    (henc : encodeHeap ((opts.map SerOpts.hostObjects).getD []) st.valueHeap = .ok enc) :
    coreSerialize st root opts =
      ((detachBuffers st ((opts.map SerOpts.transferredArrayBuffers).getD []) 0).1,
        .ok (Bytes.good enc root, cs)) := by
  unfold coreSerialize
  dsimp only
  rcases hR : detachBuffers st ((opts.map SerOpts.transferredArrayBuffers).getD []) 0
    with ⟨st1, rd⟩
  rw [hR] at hdet
  dsimp only at hdet
  subst hdet
  have hvh : st1.valueHeap = st.valueHeap := by
    have := detachBuffers_fields ((opts.map SerOpts.transferredArrayBuffers).getD []) st 0
    rw [hR] at this
    exact this.2.2
  rw [hvh, henc]

/-- C10: serialization is not atomic on error. With a transfer list of the
shape `run ++ [nonTransferable] ++ tail`, where the run consists of buffers
and pairwise-distinct entangled ports and contains the entangled endpoint
`p` (the posting endpoint not occurring in the list), and where the earlier
stages succeed (the first-loop checks pass, the codec detaches the listed
buffers and encodes the payload), `postMessage` throws the DataCloneError
"Value not transferable" — and yet afterwards `p`'s transport id is `null`:
the failed call has already consumed `p`. No transport interaction occurs. -/
theorem postMessage_nonatomic_error_consumes_port (st : WorldState)
    (self root p : Nat) (l1 l2 l3 t : List TransferEntry)
    (ht : t = (l1 ++ TransferEntry.port p :: l2) ++ TransferEntry.other :: l3)
    (hgood : ∀ e ∈ l1 ++ TransferEntry.port p :: l2, goodEntry st e = true)
    (hnd : (portRefs (l1 ++ TransferEntry.port p :: l2)).Nodup)
    (hself : TransferEntry.port self ∉ t)
    (hcol : (collectTransferParts st t 0).isOk = true)
    (hdet : ∃ cs, (detachBuffers st (bufferRefs t) 0).2 = .ok cs)
    (henc : ∃ enc, encodeHeap (portRefs t) st.valueHeap = .ok enc) :
    (postMessage st self root t).2 =
      .error ⟨"Value not transferable", "DataCloneError"⟩ ∧
    (getPort (postMessage st self root t).1 p).transportId = none ∧
    (postMessage st self root t).1.transportLog = st.transportLog := by
  obtain ⟨parts, hparts⟩ : ∃ parts, collectTransferParts st t 0 = .ok parts := by
    cases h2 : collectTransferParts st t 0 with
    | error e => rw [h2] at hcol; simp [Except.isOk, Except.toBool] at hcol
    | ok parts => exact ⟨parts, rfl⟩
  obtain ⟨cs, hdet⟩ := hdet
  obtain ⟨enc, henc⟩ := henc
  have hbufs : parts.1 = bufferRefs t := collect_ok_bufs t st 0 parts hparts
  have hhosts : parts.2 = portRefs t := collect_ok_ports t st 0 parts hparts
  have htlen : 0 < t.length := by rw [ht]; simp
  have hopts1 : (((some (⟨parts.2, parts.1⟩ : SerOpts)).map
      SerOpts.transferredArrayBuffers).getD []) = bufferRefs t := by
    rw [← hbufs]; rfl
  have hopts2 : (((some (⟨parts.2, parts.1⟩ : SerOpts)).map SerOpts.hostObjects).getD []) =
      portRefs t := by
    rw [← hhosts]; rfl
  have hcore : coreSerialize st root (some ⟨parts.2, parts.1⟩) =
      ((detachBuffers st (bufferRefs t) 0).1, .ok (Bytes.good enc root, cs)) := by
    have h2 := coreSerialize_ok_of st root (some ⟨parts.2, parts.1⟩) cs enc
      (by rw [hopts1]; exact hdet) (by rw [hopts2]; exact henc)
    rw [hopts1] at h2
    exact h2
  have hports2 : (detachBuffers st (bufferRefs t) 0).1.ports = st.ports :=
    (detachBuffers_fields (bufferRefs t) st 0).1
  have hgood2 : ∀ e ∈ l1 ++ TransferEntry.port p :: l2,
      goodEntry (detachBuffers st (bufferRefs t) 0).1 e = true := by
    intro e he
    have hg := hgood e he
    cases e with
    | buffer b => rfl
    | other => exact hg
    | port q =>
      simp only [goodEntry] at hg ⊢
      rw [getPort_congr_ports _ st q hports2]
      exact hg
  obtain ⟨herr, hnull⟩ := serTrans_good_then_other (l1 ++ TransferEntry.port p :: l2)
    (detachBuffers st (bufferRefs t) 0).1 cs 0 l3 hgood2 hnd
  rw [← ht] at herr hnull
  have hser2 : serializeJsMessageData st root t =
      ((serializeTransferables (detachBuffers st (bufferRefs t) 0).1 t cs 0).1,
        .error ⟨"Value not transferable", "DataCloneError"⟩) := by
    rw [SJMD_eval st root t parts hparts, if_pos htlen, hcore]
    dsimp only
    rw [herr]
  have hpost : postMessage st self root t =
      ((serializeTransferables (detachBuffers st (bufferRefs t) 0).1 t cs 0).1,
        .error ⟨"Value not transferable", "DataCloneError"⟩) := by
    unfold postMessage
    rw [if_neg hself, hser2]
  have hfields := serializeTransferables_fields t
    (detachBuffers st (bufferRefs t) 0).1 cs 0
  refine ⟨by rw [hpost], ?_, ?_⟩
  · rw [hpost]
    dsimp only
    exact hnull p (by simp)
  · rw [hpost]
    dsimp only
    rw [hfields.2.1]
    exact (detachBuffers_fields (bufferRefs t) st 0).2.1

/-- A world with the posting endpoint (port 0, transport id 0) and an
entangled endpoint to transfer (port 1, transport id 5). -/
def c10World : WorldState :=
  ⟨[⟨some 0, false, false, false, false, false⟩,
    ⟨some 5, false, false, false, false, false⟩],
   [], [Node.prim 0], 0, [], [], [], [], []⟩

/-- Witness for C10 at the concrete transfer list `[port 1, nonTransferable]`. -/
theorem postMessage_nonatomic_error_consumes_port_witness :
    ([TransferEntry.port 1, TransferEntry.other] =
        ([] ++ TransferEntry.port 1 :: []) ++ TransferEntry.other :: [] ∧
      (∀ e ∈ [] ++ TransferEntry.port 1 :: [], goodEntry c10World e = true) ∧
      (portRefs ([] ++ TransferEntry.port 1 :: [])).Nodup ∧
      TransferEntry.port 0 ∉ [TransferEntry.port 1, TransferEntry.other] ∧
      (collectTransferParts c10World [TransferEntry.port 1, TransferEntry.other] 0).isOk =
        true) ∧
    ((postMessage c10World 0 0 [TransferEntry.port 1, TransferEntry.other]).2 =
      .error ⟨"Value not transferable", "DataCloneError"⟩ ∧
    (getPort (postMessage c10World 0 0
      [TransferEntry.port 1, TransferEntry.other]).1 1).transportId = none ∧
    (postMessage c10World 0 0 [TransferEntry.port 1, TransferEntry.other]).1.transportLog =
      c10World.transportLog) :=
  ⟨⟨by decide, by decide, by decide, by decide, by decide⟩,
   postMessage_nonatomic_error_consumes_port c10World 0 0 1 [] [] []
     [TransferEntry.port 1, TransferEntry.other] (by decide) (by decide) (by decide)
     (by decide) (by decide) ⟨[], rfl⟩ ⟨[Node.prim 0], rfl⟩⟩

end MsgPort
